import Mathlib

/-
  Verification development for the reg-dashboard ingestion pipeline.

  Shallow embedding of the core modules:
    - src/db.ts            (upsert engine, crawl-run ledger)
    - src/analyzer.ts      (relevance classifier normalization)
    - src/crawler.ts       (feed parsing, per-pass dedup)
    - src/ingest.ts        (pipeline: quality gate, jurisdiction split, counters)

  Conventions of the embedding:
    - JS strings are Lean `String`; `toLowerCase`/`trim` are modelled by
      `String.toLower`/`String.trim` (adequate for the ASCII data this
      repository processes).
    - JS numbers are `Rat` where fractional values matter and `Int`/`Nat`
      where the code guarantees integers.
    - SQLite tables are Lean lists of rows; statements that can violate a
      constraint return `Except String`.
    - `Date.now()` is passed in explicitly as a `now : String` parameter.
-/

namespace RegDashboard

/-! ## Shared primitive helpers -/

/-- The apostrophe character, written via its code point. -/
def apos : Char := Char.ofNat 39

/-- The double-quote character, written via its code point. -/
def dquote : Char := Char.ofNat 34

/-- Lower-case hex digit for `n < 16`. -/
def hexDigit (n : Nat) : Char :=
  if n < 10 then Char.ofNat (48 + n) else Char.ofNat (97 + (n - 10))

/-- Four-digit lower-case hex rendering of `n` (used for JSON \u escapes). -/
def hex4 (n : Nat) : String :=
  String.mk [hexDigit (n / 4096 % 16), hexDigit (n / 256 % 16),
             hexDigit (n / 16 % 16), hexDigit (n % 16)]

/-- JSON.stringify escaping of one character of a string literal. -/
def jsonEscapeChar (c : Char) : String :=
  if c = dquote then String.mk ['\\', dquote]
  else if c = '\\' then "\\\\"
  else if c = '\n' then "\\n"
  else if c = '\r' then "\\r"
  else if c = '\t' then "\\t"
  else if c = Char.ofNat 8 then "\\b"
  else if c = Char.ofNat 12 then "\\f"
  else if c.toNat < 32 then "\\u" ++ hex4 c.toNat
  else String.singleton c

/-- JSON.stringify of a string value (quotes plus escapes). -/
def jsonQuote (s : String) : String :=
  String.singleton dquote ++ String.join (s.toList.map jsonEscapeChar) ++ String.singleton dquote

/-- db.ts stringifyJsonArray: JSON.stringify of an array of strings
    (compact rendering, no spaces). -/
def stringifyJsonArray (values : List String) : String :=
  "[" ++ String.intercalate "," (values.map jsonQuote) ++ "]"

/-! ## db.ts: data model -/

/-- The nine lifecycle stages (db.ts `Stage`, CHECK-constrained column). -/
inductive Stage where
  | proposed
  | introduced
  | committee_review
  | passed
  | enacted
  | effective
  | amended
  | withdrawn
  | rejected
  deriving DecidableEq, Repr

/-- db.ts `AgeBracket`. -/
inductive AgeBracket where
  | b13_15
  | b16_18
  | both
  deriving DecidableEq, Repr

/-- db.ts `AuthorityType`. -/
inductive AuthorityType where
  | national
  | state
  | local
  | supranational
  deriving DecidableEq, Repr

/-- db.ts `RegulationEventInput` (the candidate record handed to the upsert
    engine).  Scores are JS numbers, hence `Rat`. -/
structure RegulationEventInput where
  title : String
  jurisdictionCountry : String
  jurisdictionState : Option String
  stage : Stage
  ageBracket : AgeBracket
  isUnder16Applicable : Bool
  impactScore : Rat
  likelihoodScore : Rat
  confidenceScore : Rat
  chiliScore : Rat
  summary : String
  businessImpact : String
  requiredSolutions : List String
  affectedMetaProducts : List String
  competitorResponses : List String
  rawSourceText : String
  provenanceLinks : List String
  effectiveDate : Option String
  publishedDate : Option String
  sourceName : String
  sourceUrl : String
  sourceJurisdiction : String
  sourceAuthorityType : AuthorityType
  sourceReliabilityTier : Int
  deriving DecidableEq, Repr

/-- db.ts `UpsertStatus` string union, as an enumeration. -/
inductive UpsertStatus where
  | created
  | updated
  | status_changed
  | unchanged
  deriving DecidableEq, Repr

/-- db.ts `UpsertEventResult`. -/
structure UpsertEventResult where
  id : String
  status : UpsertStatus
  wasStatusChange : Bool
  previousStage : Option Stage
  deriving DecidableEq, Repr

/-- A row of the `sources` table. -/
structure SourceRow where
  id : Nat
  name : String
  url : String
  authority_type : AuthorityType
  jurisdiction : String
  reliability_tier : Int
  last_crawled_at : Option String
  created_at : String
  deriving DecidableEq, Repr

/-- A row of the `regulation_events` table.  The `stage`/`age_bracket`
    columns are CHECK-constrained to the enumerations, so they are typed;
    the three list columns and `provenance_links` hold JSON text, as stored. -/
structure RegulationEventRow where
  id : String
  title : String
  jurisdiction_country : String
  jurisdiction_state : String
  age_bracket : AgeBracket
  stage : Stage
  is_under16_applicable : Bool
  impact_score : Int
  likelihood_score : Int
  confidence_score : Int
  chili_score : Int
  summary : Option String
  business_impact : String
  required_solutions : String
  affected_products : String
  competitor_responses : String
  raw_source_text : Option String
  provenance_links : String
  effective_date : Option String
  published_date : Option String
  source_id : Nat
  source_url : String
  created_at : String
  updated_at : String
  last_crawled_at : Option String
  deriving DecidableEq, Repr

/-- A row of the append-only `regulation_event_status_changes` table
    (the AUTOINCREMENT id is the list position). -/
structure StatusChangeRow where
  event_id : String
  previous_stage : Stage
  new_stage : Stage
  changed_at : String
  deriving DecidableEq, Repr

/-- Status values the code writes into `crawl_runs.status`; `partialRun`
    models the string "partial" (a reserved word in Lean). -/
inductive CrawlRunStatus where
  | running
  | completed
  | partialRun
  | failed
  deriving DecidableEq, Repr

/-- A row of the `crawl_runs` ledger table. -/
structure CrawlRunRow where
  id : Nat
  started_at : String
  finished_at : Option String
  status : CrawlRunStatus
  sources_attempted : Nat
  sources_success : Nat
  sources_failed : Nat
  items_discovered : Nat
  events_created : Nat
  events_updated : Nat
  events_status_changed : Nat
  events_ignored : Nat
  deriving DecidableEq, Repr

/-- The SQLite database: one list per table used by the core. -/
structure Db where
  sources : List SourceRow
  events : List RegulationEventRow
  statusChanges : List StatusChangeRow
  crawlRuns : List CrawlRunRow
  deriving DecidableEq, Repr

/-- An empty database (fresh `initializeSchema`). -/
def emptyDb : Db := ⟨[], [], [], []⟩

/-- db.ts `SourceInput`. -/
structure SourceInput where
  name : String
  url : String
  authorityType : AuthorityType
  jurisdiction : String
  reliabilityTier : Int
  lastCrawledAt : Option String
  deriving DecidableEq, Repr

/-! ## db.ts: operations -/

/-- db.ts normalizeJurisdictionState: `(value ?? "").trim()`. -/
def normalizeJurisdictionState (value : Option String) : String :=
  (value.getD "").trim

/-- Whether a JS number is an integer (`Number.isInteger`). -/
def ratIsInteger (q : Rat) : Bool := q.den == 1

/-- db.ts normalizeScore (lines 155-169): non-integers collapse to 1,
    integers clamp into [1,5]. -/
def normalizeScoreDb (value : Rat) : Int :=
  if ¬ ratIsInteger value then 1
  else if value < 1 then 1
  else if value > 5 then 5
  else value.num

/-- db.ts dedupeKey: lower-cased `country|state|title`. -/
def dedupeKey (country state title : String) : String :=
  country.toLower ++ "|" ++ state.toLower ++ "|" ++ title.toLower

/-- db.ts deterministicEventId: the sha-1 hex digest of the dedupe key.
    The digest is modelled as an injective tagging of the key; the claims
    rely only on the id being a deterministic function of the key. -/
def deterministicEventId (dedupe : String) : String :=
  "sha1:" ++ dedupe

/-- db.ts upsertSource: INSERT ... ON CONFLICT(url) DO UPDATE, then a
    SELECT of the row id by url.  The AUTOINCREMENT id is modelled as
    list length + 1.  The UNIQUE constraint on `sources.name` is not
    modelled (no claim concerns the sources table). -/
def upsertSource (db : Db) (source : SourceInput) (now : String) : Nat × Db :=
  let timestamp := source.lastCrawledAt.getD now
  match db.sources.find? (fun r => r.url == source.url) with
  | some row =>
      let db' := { db with sources := db.sources.map (fun r =>
        if r.url == source.url then
          { r with
            name := source.name
            authority_type := source.authorityType
            jurisdiction := source.jurisdiction
            reliability_tier := source.reliabilityTier
            last_crawled_at := some timestamp }
        else r) }
      (row.id, db')
  | none =>
      let newId := db.sources.length + 1
      let newRow : SourceRow :=
        { id := newId
          name := source.name
          url := source.url
          authority_type := source.authorityType
          jurisdiction := source.jurisdiction
          reliability_tier := source.reliabilityTier
          last_crawled_at := some timestamp
          created_at := timestamp }
      (newId, { db with sources := db.sources ++ [newRow] })

/-- db.ts upsertRegulationEvent existing-row lookup (lines 377-407):
    country and state are matched exactly, the title up to lower-casing.
    The query's ORDER BY updated_at DESC LIMIT 1 selects a single row;
    because the id (the primary key) is a function of the lower-cased
    key, at most one row can match, so a plain find? is adequate. -/
def findExistingEvent (events : List RegulationEventRow)
    (country state title : String) : Option RegulationEventRow :=
  events.find? (fun r =>
    r.jurisdiction_country == country &&
    r.jurisdiction_state == state &&
    r.title.toLower == title.toLower)

/-- The country normalization in upsertRegulationEvent (line 367):
    `event.jurisdictionCountry.trim() || "Unknown"`. -/
def normalizeCountry (raw : String) : String :=
  let t := raw.trim
  if t = "" then "Unknown" else t

/-- The UPDATE statement of the changed branch (db.ts lines 497-539),
    applied to the stored row.  Title, jurisdiction, source reference and
    created_at are left untouched. -/
def applyEventUpdate (e : RegulationEventInput) (now : String)
    (nImpact nLikelihood nConfidence nChili : Int)
    (nSummary nBusinessImpact nRawSourceText : String)
    (r : RegulationEventRow) : RegulationEventRow :=
  { r with
    stage := e.stage
    age_bracket := e.ageBracket
    is_under16_applicable := e.isUnder16Applicable
    impact_score := nImpact
    likelihood_score := nLikelihood
    confidence_score := nConfidence
    chili_score := nChili
    summary := some nSummary
    business_impact := nBusinessImpact
    required_solutions := stringifyJsonArray e.requiredSolutions
    affected_products := stringifyJsonArray e.affectedMetaProducts
    competitor_responses := stringifyJsonArray e.competitorResponses
    raw_source_text := some nRawSourceText
    provenance_links := stringifyJsonArray e.provenanceLinks
    effective_date := e.effectiveDate
    published_date := e.publishedDate
    updated_at := now
    last_crawled_at := some now }

/-- The unchanged-branch UPDATE (db.ts line 492): only the two
    timestamps are bumped. -/
def bumpCrawlTimestamps (now : String) (r : RegulationEventRow) : RegulationEventRow :=
  { r with last_crawled_at := some now, updated_at := now }

/-- normalized.summary (db.ts line 418): `event.summary || fallback`. -/
def defaultedSummary (event : RegulationEventInput) : String :=
  if event.summary = "" then "Regulation item: " ++ event.title else event.summary

/-- normalized.businessImpact (db.ts line 419): `|| "Unknown"`. -/
def defaultedBusinessImpact (event : RegulationEventInput) : String :=
  if event.businessImpact = "" then "Unknown" else event.businessImpact

/-- The local `wasStatusChange` of upsertRegulationEvent (db.ts line 473). -/
def eventWasStatusChange (existing : RegulationEventRow) (event : RegulationEventInput) : Bool :=
  existing.stage != event.stage

/-- The local `hasChanges` of upsertRegulationEvent (db.ts lines 474-487):
    the compared-content disjunction.  Note it does not inspect
    `is_under16_applicable` or the two date columns. -/
def eventHasChanges (existing : RegulationEventRow) (event : RegulationEventInput) : Bool :=
  eventWasStatusChange existing event ||
  existing.age_bracket != event.ageBracket ||
  existing.impact_score != normalizeScoreDb event.impactScore ||
  existing.likelihood_score != normalizeScoreDb event.likelihoodScore ||
  existing.confidence_score != normalizeScoreDb event.confidenceScore ||
  existing.chili_score != normalizeScoreDb event.chiliScore ||
  (existing.summary.getD "") != defaultedSummary event ||
  existing.business_impact != defaultedBusinessImpact event ||
  existing.required_solutions != stringifyJsonArray event.requiredSolutions ||
  existing.affected_products != stringifyJsonArray event.affectedMetaProducts ||
  existing.competitor_responses != stringifyJsonArray event.competitorResponses ||
  existing.raw_source_text != some event.rawSourceText ||
  existing.provenance_links != stringifyJsonArray event.provenanceLinks

/-- db.ts upsertRegulationEvent (lines 364-548).  A primary-key or
    unique-index violation on INSERT is modelled as `Except.error`
    (better-sqlite3 throws).  `event.rawSourceText || ""` is the identity
    on strings (the only falsy string is "") and is kept as such. -/
def upsertRegulationEvent (db : Db) (event : RegulationEventInput) (now : String) :
    Except String (UpsertEventResult × Db) :=
  let state := normalizeJurisdictionState event.jurisdictionState
  let country := normalizeCountry event.jurisdictionCountry
  let src : SourceInput :=
    { name := event.sourceName
      url := event.sourceUrl
      authorityType := event.sourceAuthorityType
      jurisdiction := event.sourceJurisdiction
      reliabilityTier := event.sourceReliabilityTier
      lastCrawledAt := some now }
  let step := upsertSource db src now
  let sourceId := step.1
  let db1 := step.2
  let eventId := deterministicEventId (dedupeKey country state event.title)
  let nImpact := normalizeScoreDb event.impactScore
  let nLikelihood := normalizeScoreDb event.likelihoodScore
  let nConfidence := normalizeScoreDb event.confidenceScore
  let nChili := normalizeScoreDb event.chiliScore
  let nSummary := defaultedSummary event
  let nBusinessImpact := defaultedBusinessImpact event
  let nRawSourceText := event.rawSourceText
  match findExistingEvent db1.events country state event.title with
  | none =>
      if db1.events.any (fun r => r.id == eventId) then
        Except.error "UNIQUE constraint failed: regulation_events.id"
      else if db1.events.any (fun r =>
          r.jurisdiction_country == country && r.jurisdiction_state == state &&
          r.source_url == event.sourceUrl && r.title == event.title) then
        Except.error "UNIQUE constraint failed: idx_regulation_events_dedupe"
      else
        let newRow : RegulationEventRow :=
          { id := eventId
            title := event.title
            jurisdiction_country := country
            jurisdiction_state := state
            age_bracket := event.ageBracket
            stage := event.stage
            is_under16_applicable := event.isUnder16Applicable
            impact_score := nImpact
            likelihood_score := nLikelihood
            confidence_score := nConfidence
            chili_score := nChili
            summary := some nSummary
            business_impact := nBusinessImpact
            required_solutions := stringifyJsonArray event.requiredSolutions
            affected_products := stringifyJsonArray event.affectedMetaProducts
            competitor_responses := stringifyJsonArray event.competitorResponses
            raw_source_text := some nRawSourceText
            provenance_links := stringifyJsonArray event.provenanceLinks
            effective_date := event.effectiveDate
            published_date := event.publishedDate
            source_id := sourceId
            source_url := event.sourceUrl
            created_at := now
            updated_at := now
            last_crawled_at := some now }
        Except.ok
          ({ id := eventId, status := UpsertStatus.created,
             wasStatusChange := false, previousStage := none },
           { db1 with events := db1.events ++ [newRow] })
  | some existing =>
      let wasStatusChange := eventWasStatusChange existing event
      let hasChanges := eventHasChanges existing event
      let previousStage := existing.stage
      if ¬ hasChanges then
        Except.ok
          ({ id := existing.id, status := UpsertStatus.unchanged,
             wasStatusChange := wasStatusChange, previousStage := some previousStage },
           { db1 with events := db1.events.map (fun r =>
              if r.id == existing.id then bumpCrawlTimestamps now r else r) })
      else
        let status := if wasStatusChange then UpsertStatus.status_changed else UpsertStatus.updated
        let db2 := { db1 with events := db1.events.map (fun r =>
          if r.id == existing.id then
            applyEventUpdate event now nImpact nLikelihood nConfidence nChili
              nSummary nBusinessImpact nRawSourceText r
          else r) }
        let db3 :=
          if wasStatusChange then
            { db2 with statusChanges := db2.statusChanges ++
                [{ event_id := existing.id, previous_stage := previousStage,
                   new_stage := event.stage, changed_at := now }] }
          else db2
        Except.ok
          ({ id := existing.id, status := status,
             wasStatusChange := wasStatusChange, previousStage := some previousStage },
           db3)

/-- db.ts createCrawlRun: inserts a `running` row with zeroed counters
    and null finished_at; returns the AUTOINCREMENT id. -/
def createCrawlRun (db : Db) (now : String) : Nat × Db :=
  let newId := db.crawlRuns.length + 1
  let row : CrawlRunRow :=
    { id := newId
      started_at := now
      finished_at := none
      status := CrawlRunStatus.running
      sources_attempted := 0
      sources_success := 0
      sources_failed := 0
      items_discovered := 0
      events_created := 0
      events_updated := 0
      events_status_changed := 0
      events_ignored := 0 }
  (newId, { db with crawlRuns := db.crawlRuns ++ [row] })

/-- The value record handed to finalizeCrawlRun. -/
structure FinalizeValues where
  status : CrawlRunStatus
  sourcesAttempted : Nat
  sourcesSuccess : Nat
  sourcesFailed : Nat
  itemsDiscovered : Nat
  eventsCreated : Nat
  eventsUpdated : Nat
  eventsStatusChanged : Nat
  eventsIgnored : Nat
  deriving DecidableEq, Repr

/-- db.ts finalizeCrawlRun: UPDATE of the run row by id, setting
    finished_at and all counters. -/
def finalizeCrawlRun (db : Db) (runId : Nat) (values : FinalizeValues) (now : String) : Db :=
  { db with crawlRuns := db.crawlRuns.map (fun r =>
      if r.id == runId then
        { r with
          finished_at := some now
          status := values.status
          sources_attempted := values.sourcesAttempted
          sources_success := values.sourcesSuccess
          sources_failed := values.sourcesFailed
          items_discovered := values.itemsDiscovered
          events_created := values.eventsCreated
          events_updated := values.eventsUpdated
          events_status_changed := values.eventsStatusChanged
          events_ignored := values.eventsIgnored }
      else r) }

/-! ## String scanning helpers shared by the classifier and parsers -/

/-- Whether `needle` is a prefix of `hay` (character lists). -/
def charsHasPrefix : List Char → List Char → Bool
  | _, [] => true
  | [], _ :: _ => false
  | h :: hs, n :: ns => (h == n) && charsHasPrefix hs ns

/-- Whether `needle` occurs as a contiguous run inside `hay`. -/
def charsContains : List Char → List Char → Bool
  | [], needle => needle.isEmpty
  | h :: hs, needle => charsHasPrefix (h :: hs) needle || charsContains hs needle

/-- Index of the first occurrence of `needle` inside `hay`. -/
def charsFindSub : List Char → List Char → Option Nat
  | [], needle => if needle.isEmpty then some 0 else none
  | h :: hs, needle =>
      if charsHasPrefix (h :: hs) needle then some 0
      else (charsFindSub hs needle).map (· + 1)

/-- JS `hay.includes(needle)` on strings. -/
def strContains (hay needle : String) : Bool :=
  charsContains hay.toList needle.toList

/-- Case-insensitive containment: a regex of literal alternatives with the
    /i flag reduces to this on each alternative. -/
def strContainsCI (hay needle : String) : Bool :=
  strContains hay.toLower needle.toLower

/-- JS `replace(/\s+/g, repl)`: every maximal whitespace run becomes one
    copy of `repl` (JS \s also covers \f/\v and unicode spaces; the data
    here only uses ASCII whitespace). -/
def replaceWsAux (repl : String) : List Char → Bool → String
  | [], _ => ""
  | c :: rest, inRun =>
    if c.isWhitespace then
      (if inRun then "" else repl) ++ replaceWsAux repl rest true
    else
      String.singleton c ++ replaceWsAux repl rest false

/-- String form of `replaceWsAux`. -/
def jsReplaceWsRuns (repl : String) (s : String) : String :=
  replaceWsAux repl s.toList false

/-! ## JSON values (the classifier response payload) -/

/-- The opening brace character, via its code point. -/
def lbrace : Char := Char.ofNat 123

/-- The closing brace character, via its code point. -/
def rbrace : Char := Char.ofNat 125

/-- A parsed JSON value. -/
inductive Json where
  | null
  | bool (b : Bool)
  | num (q : Rat)
  | str (s : String)
  | arr (items : List Json)
  | obj (fields : List (String × Json))

/-- Property lookup on an object's field list. -/
def jsonObjGet (fields : List (String × Json)) (key : String) : Option Json :=
  (fields.find? (fun p => p.1 == key)).map (fun p => p.2)

/-- JS property access `value[key]`: undefined (`none`) on non-objects. -/
def jsonGet : Json → String → Option Json
  | .obj fields, key => jsonObjGet fields key
  | _, _ => none

/-- JS truthiness of a JSON value (`Boolean(value)`). -/
def jsTruthy : Json → Bool
  | .null => false
  | .bool b => b
  | .num q => if q = 0 then false else true
  | .str s => s != ""
  | .arr _ => true
  | .obj _ => true

/-- JS truthiness where the value may be undefined. -/
def jsTruthyOpt : Option Json → Bool
  | none => false
  | some j => jsTruthy j

/-! ## A JSON text parser (JSON.parse) -/

/-- Skip JSON insignificant whitespace. -/
def jsonSkipWs : List Char → List Char
  | c :: rest =>
      if c = ' ' ∨ c = '\t' ∨ c = '\n' ∨ c = '\r' then jsonSkipWs rest else c :: rest
  | [] => []

/-- Numeric value of a hex digit, if it is one. -/
def hexVal (c : Char) : Option Nat :=
  if c.isDigit then some (c.toNat - 48)
  else if 97 ≤ c.toNat ∧ c.toNat ≤ 102 then some (c.toNat - 87)
  else if 65 ≤ c.toNat ∧ c.toNat ≤ 70 then some (c.toNat - 55)
  else none

/-- Natural number from a non-empty all-digit character run. -/
def natOfDigits (cs : List Char) : Option Nat :=
  if cs.isEmpty || !(cs.all Char.isDigit) then none
  else some (cs.foldl (fun a c => a * 10 + (c.toNat - 48)) 0)

/-- Scale a rational by an integer power of ten. -/
def ratTimesPow10 (q : Rat) (e : Int) : Rat :=
  if 0 ≤ e then q * (10 : Rat) ^ e.toNat else q / (10 : Rat) ^ (-e).toNat

/-- Body of a JSON string literal after the opening quote; returns the
    decoded content and the remainder after the closing quote. -/
def jsonParseStringBody : Nat → List Char → Option (String × List Char)
  | 0, _ => none
  | _, [] => none
  | fuel + 1, c :: rest =>
    if c = dquote then some ("", rest)
    else if c = '\\' then
      match rest with
      | [] => none
      | e :: rest2 =>
        let decoded : Option (Char × List Char) :=
          if e = dquote then some (dquote, rest2)
          else if e = '\\' then some ('\\', rest2)
          else if e = '/' then some ('/', rest2)
          else if e = 'b' then some (Char.ofNat 8, rest2)
          else if e = 'f' then some (Char.ofNat 12, rest2)
          else if e = 'n' then some ('\n', rest2)
          else if e = 'r' then some ('\r', rest2)
          else if e = 't' then some ('\t', rest2)
          else if e = 'u' then
            match rest2 with
            | h1 :: h2 :: h3 :: h4 :: rest3 =>
              match hexVal h1, hexVal h2, hexVal h3, hexVal h4 with
              | some a, some b, some cc, some d =>
                  some (Char.ofNat (a * 4096 + b * 256 + cc * 16 + d), rest3)
              | _, _, _, _ => none
            | _ => none
          else none
        match decoded with
        | some (ch, rest3) =>
            (jsonParseStringBody fuel rest3).map (fun p => (String.singleton ch ++ p.1, p.2))
        | none => none
    else if c.toNat < 32 then none
    else
      (jsonParseStringBody fuel rest).map (fun p => (String.singleton c ++ p.1, p.2))

/-- Split a leading run of decimal digits. -/
def spanDigits (cs : List Char) : List Char × List Char :=
  (cs.takeWhile Char.isDigit, cs.dropWhile Char.isDigit)

/-- A JSON number literal (strict grammar: -? (0 | [1-9][0-9]*) frac? exp?). -/
def jsonParseNumber (cs : List Char) : Option (Rat × List Char) :=
  let (neg, cs1) := match cs with
    | '-' :: rest => (true, rest)
    | _ => (false, cs)
  let (intPart, cs2) := spanDigits cs1
  let intOk :=
    match intPart with
    | [] => false
    | [_] => true
    | d :: _ => d ≠ '0'
  if !intOk then none else
  let (fracPart, cs3) :=
    match cs2 with
    | '.' :: rest =>
        let (ds, rest') := spanDigits rest
        (ds, rest')
    | _ => ([], cs2)
  let fracPresent := match cs2 with | '.' :: _ => true | _ => false
  if fracPresent ∧ fracPart.isEmpty then none else
  let expParsed : Option (Int × List Char) :=
    match cs3 with
    | e :: rest =>
      if e = 'e' ∨ e = 'E' then
        let (esign, rest1) := match rest with
          | '+' :: r => ((1 : Int), r)
          | '-' :: r => ((-1 : Int), r)
          | _ => ((1 : Int), rest)
        let (eds, rest2) := spanDigits rest1
        match natOfDigits eds with
        | some n => some (esign * n, rest2)
        | none => none
      else some (0, cs3)
    | [] => some (0, cs3)
  match expParsed with
  | none => none
  | some (expVal, csRest) =>
    match natOfDigits (intPart ++ fracPart) with
    | none =>
      match natOfDigits intPart with
      | some m =>
          let base : Rat := m
          some (ratTimesPow10 (if neg then -base else base) expVal, csRest)
      | none => none
    | some mantissa =>
      let base : Rat := (mantissa : Rat) / (10 : Rat) ^ fracPart.length
      some (ratTimesPow10 (if neg then -base else base) expVal, csRest)

/-- Insert a key into an object field list, JS-object style: a repeated
    key keeps its first position but takes the last value. -/
def jsonObjInsert (fields : List (String × Json)) (key : String) (v : Json) :
    List (String × Json) :=
  if fields.any (fun p => p.1 == key) then
    fields.map (fun p => if p.1 == key then (key, v) else p)
  else fields ++ [(key, v)]

mutual

/-- One JSON value, fuel-indexed (fuel bounded by the input length). -/
def jsonParseValue : Nat → List Char → Option (Json × List Char)
  | 0, _ => none
  | fuel + 1, cs =>
    match jsonSkipWs cs with
    | [] => none
    | c :: rest =>
      if c = dquote then
        (jsonParseStringBody (fuel + 1) rest).map (fun p => (Json.str p.1, p.2))
      else if c = lbrace then
        match jsonSkipWs rest with
        | d :: rest2 =>
            if d = rbrace then some (Json.obj [], rest2)
            else jsonParseMembers fuel (d :: rest2) []
        | [] => none
      else if c = '[' then
        match jsonSkipWs rest with
        | d :: rest2 =>
            if d = ']' then some (Json.arr [], rest2)
            else jsonParseElements fuel (d :: rest2) []
        | [] => none
      else if charsHasPrefix (c :: rest) "true".toList then
        some (Json.bool true, (c :: rest).drop 4)
      else if charsHasPrefix (c :: rest) "false".toList then
        some (Json.bool false, (c :: rest).drop 5)
      else if charsHasPrefix (c :: rest) "null".toList then
        some (Json.null, (c :: rest).drop 4)
      else
        (jsonParseNumber (c :: rest)).map (fun p => (Json.num p.1, p.2))

/-- Object members after the opening brace (non-empty object). -/
def jsonParseMembers : Nat → List Char → List (String × Json) →
    Option (Json × List Char)
  | 0, _, _ => none
  | fuel + 1, cs, acc =>
    match jsonSkipWs cs with
    | c :: rest =>
      if c = dquote then
        match jsonParseStringBody (fuel + 1) rest with
        | none => none
        | some (key, rest2) =>
          match jsonSkipWs rest2 with
          | ':' :: rest3 =>
            match jsonParseValue fuel rest3 with
            | none => none
            | some (v, rest4) =>
              let acc' := jsonObjInsert acc key v
              match jsonSkipWs rest4 with
              | ',' :: rest5 => jsonParseMembers fuel rest5 acc'
              | d :: rest5 => if d = rbrace then some (Json.obj acc', rest5) else none
              | [] => none
          | _ => none
      else none
    | [] => none

/-- Array elements after the opening bracket (non-empty array). -/
def jsonParseElements : Nat → List Char → List Json →
    Option (Json × List Char)
  | 0, _, _ => none
  | fuel + 1, cs, acc =>
    match jsonParseValue fuel cs with
    | none => none
    | some (v, rest) =>
      match jsonSkipWs rest with
      | ',' :: rest2 => jsonParseElements fuel rest2 (acc ++ [v])
      | ']' :: rest2 => some (Json.arr (acc ++ [v]), rest2)
      | _ => none

end

/-- JSON.parse of a complete text: one value, then only whitespace. -/
def jsonParse (s : String) : Option Json :=
  match jsonParseValue (s.length + 1) s.toList with
  | some (v, rest) => if jsonSkipWs rest = [] then some v else none
  | none => none

/-! ## analyzer.ts: JS number coercion and score normalization -/

/-- A JS number as seen by `Number.isFinite`: either a finite value or a
    non-finite one (NaN, Infinity, -Infinity). -/
inductive JsNumber where
  | notFinite
  | finite (q : Rat)
  deriving DecidableEq, Repr

/-- Strip an optional sign, returning the sign factor and the rest. -/
def stripSign (cs : List Char) : Int × List Char :=
  match cs with
  | '+' :: rest => (1, rest)
  | '-' :: rest => (-1, rest)
  | _ => (1, cs)

/-- JS `Number(string)` coercion: trimmed, "" is 0, decimal with optional
    fraction/exponent, 0x/0o/0b radix literals (no sign), Infinity forms;
    everything else is NaN. -/
def jsStringToNumber (s : String) : JsNumber :=
  let t := s.trim
  if t = "" then JsNumber.finite 0
  else if t = "Infinity" ∨ t = "+Infinity" ∨ t = "-Infinity" then JsNumber.notFinite
  else
    let cs := t.toList
    let radix : Option (Nat × List Char) :=
      match cs with
      | '0' :: x :: rest =>
          if x = 'x' ∨ x = 'X' then some (16, rest)
          else if x = 'o' ∨ x = 'O' then some (8, rest)
          else if x = 'b' ∨ x = 'B' then some (2, rest)
          else none
      | _ => none
    match radix with
    | some (base, digits) =>
        if digits.isEmpty then JsNumber.notFinite
        else
          let step := fun (acc : Option Nat) (c : Char) =>
            match acc, hexVal c with
            | some a, some v => if v < base then some (a * base + v) else none
            | _, _ => none
          match digits.foldl step (some 0) with
          | some n => JsNumber.finite n
          | none => JsNumber.notFinite
    | none =>
      let (sign, cs1) := stripSign cs
      let (intPart, cs2) := spanDigits cs1
      let (fracPresent, fracPart, cs3) :=
        match cs2 with
        | '.' :: rest =>
            let (ds, rest') := spanDigits rest
            (true, ds, rest')
        | _ => (false, [], cs2)
      if intPart.isEmpty ∧ fracPart.isEmpty then JsNumber.notFinite
      else
        let expParsed : Option Int :=
          match cs3 with
          | [] => some 0
          | e :: rest =>
            if e = 'e' ∨ e = 'E' then
              let (esign, rest1) := stripSign rest
              match rest1 with
              | [] => none
              | _ =>
                if rest1.all Char.isDigit then
                  (natOfDigits rest1).map (fun n => esign * n)
                else none
            else none
        match expParsed with
        | none => JsNumber.notFinite
        | some expVal =>
          let _ := fracPresent
          let mantissa := (intPart ++ fracPart).foldl (fun (a : Nat) (c : Char) => a * 10 + (c.toNat - 48)) 0
          let base : Rat := (mantissa : Rat) / (10 : Rat) ^ fracPart.length
          JsNumber.finite (ratTimesPow10 ((sign : Rat) * base) expVal)

/-- The coercion in analyzer.ts normalizeScore line 107:
    `typeof value === "number" ? value : Number(value)`, over a JSON field
    that may be missing (undefined).  `Number` of undefined is NaN, of null
    0, of booleans 0/1, of strings via `jsStringToNumber`; objects coerce
    through toString to NaN, arrays through their joined string form
    (modelled for the flat cases: [] is 0, a singleton coerces like its
    element, longer arrays contain a comma and give NaN). -/
def jsToNumber : Option Json → JsNumber
  | none => JsNumber.notFinite
  | some (Json.num q) => JsNumber.finite q
  | some Json.null => JsNumber.finite 0
  | some (Json.bool b) => JsNumber.finite (if b then 1 else 0)
  | some (Json.str s) => jsStringToNumber s
  | some (Json.obj _) => JsNumber.notFinite
  | some (Json.arr []) => JsNumber.finite 0
  | some (Json.arr [Json.num q]) => JsNumber.finite q
  | some (Json.arr [Json.str s]) => jsStringToNumber s
  | some (Json.arr [Json.null]) => JsNumber.finite 0
  | some (Json.arr _) => JsNumber.notFinite

/-- JS `Math.round`: nearest integer, halves toward positive infinity. -/
def jsRound (q : Rat) : Int := (q + 1 / 2).floor

/-- analyzer.ts normalizeScore (lines 106-118): non-finite coercions give
    1; otherwise round, then clamp into [1,5]. -/
def normalizeScore (value : Option Json) : Int :=
  match jsToNumber value with
  | JsNumber.notFinite => 1
  | JsNumber.finite q =>
    let rounded := jsRound q
    if rounded < 1 ∨ rounded > 5 then (if rounded < 1 then 1 else 5) else rounded

/-! ## analyzer.ts: stage / age bracket / list normalization -/

/-- Exact match against the allowedStages list. -/
def stageFromName (s : String) : Option Stage :=
  if s = "proposed" then some Stage.proposed
  else if s = "introduced" then some Stage.introduced
  else if s = "committee_review" then some Stage.committee_review
  else if s = "passed" then some Stage.passed
  else if s = "enacted" then some Stage.enacted
  else if s = "effective" then some Stage.effective
  else if s = "amended" then some Stage.amended
  else if s = "withdrawn" then some Stage.withdrawn
  else if s = "rejected" then some Stage.rejected
  else none

/-- analyzer.ts stageFallback: ordered case-insensitive literal
    alternations tested against the raw stage text. -/
def stageFallback : List (List String × Stage) :=
  [ (["proposed"], Stage.proposed),
    (["introduced", "draft", "bill"], Stage.introduced),
    (["committee", "hear", "comment"], Stage.committee_review),
    (["passed", "adopted", "approved"], Stage.passed),
    (["enacted", "in force", "effective"], Stage.enacted),
    (["amend"], Stage.amended),
    (["withdrawn", "withdraw"], Stage.withdrawn),
    (["rejected", "failed", "veto"], Stage.rejected) ]

/-- analyzer.ts normalizeStage (lines 120-133): lower-case, collapse
    whitespace to underscores, exact enum match, else the ordered regex
    fallbacks on the raw text, else proposed. -/
def normalizeStage (rawStage : String) : Stage :=
  let candidate := jsReplaceWsRuns "_" rawStage.toLower
  match stageFromName candidate with
  | some st => st
  | none =>
    match stageFallback.find? (fun pr => pr.1.any (fun pat => strContainsCI rawStage pat)) with
    | some pr => pr.2
    | none => Stage.proposed

/-- analyzer.ts normalizeAgeBracket (lines 135-150): substring heuristics
    on the lower-cased text, defaulting to both (also for missing or
    empty input, which is falsy). -/
def normalizeAgeBracket (raw : Option String) : AgeBracket :=
  match raw with
  | none => AgeBracket.both
  | some r =>
    if r = "" then AgeBracket.both
    else
      let normalized := r.toLower
      if strContains normalized "13-15" ||
         (strContains normalized "13" && strContains normalized "15") then
        AgeBracket.b13_15
      else if strContains normalized "16-18" ||
         (strContains normalized "16" && strContains normalized "18") then
        AgeBracket.b16_18
      else AgeBracket.both

/-- analyzer.ts sanitizeStringList (lines 233-243): keep strings, trim,
    drop empties, cap at 20. -/
def sanitizeStringList (input : Option Json) : List String :=
  match input with
  | some (Json.arr xs) =>
      ((xs.filterMap (fun j => match j with | Json.str s => some s | _ => none)).map
        String.trim).filter (fun s => s != "") |>.take 20
  | _ => []

/-! ## analyzer.ts: response text extraction and JSON recovery -/

/-- Text of one content piece: objects with a string `text` property
    contribute it, everything else the empty string. -/
def pieceText : Json → String
  | Json.obj fields =>
    match jsonObjGet fields "text" with
    | some (Json.str t) => t
    | _ => ""
  | _ => ""

/-- First string `text` property among nested content pieces. -/
def findNestedText : List Json → Option String
  | [] => none
  | n :: rest =>
    match n with
    | Json.obj f =>
      (match jsonObjGet f "text" with
       | some (Json.str t) => some t
       | _ => findNestedText rest)
    | _ => findNestedText rest

/-- Scan of the `messages` array: the first item whose `content` is a
    non-blank string, or whose `content` array holds a piece with a
    string `text`. -/
def scanMessages : List Json → String
  | [] => ""
  | item :: rest =>
    match item with
    | Json.obj f =>
      (match jsonObjGet f "content" with
       | some (Json.str t) => if t.trim != "" then t else scanMessages rest
       | some (Json.arr nested) =>
         (match findNestedText nested with
          | some t => t
          | none => scanMessages rest)
       | _ => scanMessages rest)
    | _ => scanMessages rest

/-- analyzer.ts extractTextFromModelResponse (lines 175-231): output_text,
    then a joined content array, then a content string, then message.content,
    then the messages array; anything else is the empty string. -/
def extractTextFromModelResponse (body : Json) : String :=
  match body with
  | Json.obj fields =>
    (match jsonObjGet fields "output_text" with
     | some (Json.str s) => s
     | _ =>
       let contentVal := jsonObjGet fields "content"
       let fromArr : Option String :=
         match contentVal with
         | some (Json.arr pieces) =>
             let firstText := String.intercalate " " (pieces.map pieceText)
             if firstText.trim != "" then some firstText else none
         | _ => none
       match fromArr with
       | some t => t
       | none =>
         match contentVal with
         | some (Json.str s) => s
         | _ =>
           match jsonObjGet fields "message" with
           | some (Json.obj mf) =>
             (match jsonObjGet mf "content" with
              | some (Json.str s) => s
              | _ =>
                match jsonObjGet fields "messages" with
                | some (Json.arr items) => scanMessages items
                | _ => "")
           | _ =>
             match jsonObjGet fields "messages" with
             | some (Json.arr items) => scanMessages items
             | _ => "")
  | _ => ""

/-- analyzer.ts parseResponseJson (lines 152-173).  The regex
    /\x7b[\s\S]*\x7d$/ matches exactly when the text has an opening brace
    and its final character is a closing brace; the match then runs from
    the first opening brace to the end.  The catch-fallback re-slices
    from the first opening brace to the last closing brace, which is the
    identical text whenever the regex matched, so a failed first parse
    fails again; the second attempt is therefore collapsed here. -/
def parseResponseJson (content : String) : Option Json :=
  let cs := content.toList
  match cs.findIdx? (fun c => c = lbrace) with
  | none => none
  | some i =>
    if cs.getLast? = some rbrace then
      jsonParse (String.mk (cs.drop i))
    else none

/-! ## analyzer.ts: the classifier -/

/-- sources.ts `SourceRecord` (the fields the core reads). -/
structure SourceRecord where
  id : String
  name : String
  url : String
  kind : String
  jurisdiction : String
  authorityType : AuthorityType
  reliabilityTier : Int
  searchQuery : Option String
  notes : Option String
  deriving DecidableEq, Repr

/-- crawler.ts `CrawlInput`. -/
structure CrawlInput where
  title : String
  publishedAt : Option String
  url : String
  summary : String
  rawText : String
  deriving DecidableEq, Repr

/-- crawler.ts `CrawledItem`: a CrawlInput plus its source and provenance. -/
structure CrawledItem extends CrawlInput where
  source : SourceRecord
  provenanceLinks : List String
  deriving DecidableEq, Repr

/-- analyzer.ts `AnalyzedItem`; scores are integers after normalization. -/
structure AnalyzedItem where
  isRelevant : Bool
  jurisdiction : String
  stage : Stage
  ageBracket : AgeBracket
  affectedMetaProducts : List String
  summary : String
  businessImpact : String
  requiredSolutions : List String
  competitorResponses : List String
  impactScore : Int
  likelihoodScore : Int
  confidenceScore : Int
  chiliScore : Int
  deriving DecidableEq, Repr

/-- analyzer.ts analyzePayloadDefaults (lines 245-261): the safe default
    not-relevant record. -/
def analyzePayloadDefaults (title : String) : AnalyzedItem :=
  { isRelevant := false
    jurisdiction := "Unknown"
    stage := Stage.proposed
    ageBracket := AgeBracket.both
    affectedMetaProducts := ["Meta Family of Products"]
    summary := "Not enough evidence to confirm teen-specific relevance for: " ++ title
    businessImpact := "Unknown"
    requiredSolutions := ["Monitoring required"]
    competitorResponses := []
    impactScore := 1
    likelihoodScore := 1
    confidenceScore := 1
    chiliScore := 1 }

/-- The observable outcome of the one classification-service call made by
    analyzeCrawledItem: the fetch rejecting (abort/timeout/network error,
    or response.json() failing), a non-2xx response, or a parsed JSON
    response body.  Request construction (prompt text, headers) has no
    bearing on the returned value and is not modelled. -/
inductive ServiceOutcome where
  | fetchFailure (message : String)
  | httpError (status : Nat) (statusText : String) (body : String)
  | success (payload : Json)

/-- analyzer.ts analyzeCrawledItem (lines 263-347).  A thrown JS error is
    `Except.error`; the missing/empty credential path returns the safe
    defaults.  The service call's outcome is supplied by the environment. -/
def analyzeCrawledItem (apiKey : Option String) (outcome : ServiceOutcome)
    (item : CrawledItem) : Except String AnalyzedItem :=
  let keyFalsy := match apiKey with
    | none => true
    | some k => k = ""
  if keyFalsy then Except.ok (analyzePayloadDefaults item.title)
  else
    match outcome with
    | ServiceOutcome.fetchFailure msg => Except.error msg
    | ServiceOutcome.httpError status statusText body =>
        Except.error ("MiniMax API request failed with " ++ toString status ++ " "
          ++ statusText ++ ": " ++ body.take 200)
    | ServiceOutcome.success payload =>
      let rawText := extractTextFromModelResponse payload
      if rawText = "" then
        Except.error "MiniMax API returned no analyzable text content"
      else
        match parseResponseJson rawText with
        | none => Except.error "MiniMax API response could not be parsed as JSON"
        | some parsed =>
          let isRelevant := jsTruthyOpt (jsonGet parsed "isRelevant")
          let jurisdiction :=
            match jsonGet parsed "jurisdiction" with
            | some (Json.str s) => if s.trim != "" then s.trim else item.source.jurisdiction
            | _ => item.source.jurisdiction
          let stage := normalizeStage
            (match jsonGet parsed "stage" with | some (Json.str s) => s | _ => "")
          let ageBracket := normalizeAgeBracket
            (match jsonGet parsed "ageBracket" with | some (Json.str s) => some s | _ => none)
          let aff := sanitizeStringList (jsonGet parsed "affectedMetaProducts")
          let summary :=
            match jsonGet parsed "summary" with
            | some (Json.str s) =>
                if s.trim != "" then s.trim else "Teen-related relevance note for " ++ item.title
            | _ => "Teen-related relevance note for " ++ item.title
          let businessImpact :=
            match jsonGet parsed "businessImpact" with
            | some (Json.str s) => if s.trim != "" then s.trim else "Medium"
            | _ => "Medium"
          Except.ok
            { isRelevant := isRelevant
              jurisdiction := jurisdiction
              stage := stage
              ageBracket := ageBracket
              affectedMetaProducts := if aff.isEmpty then ["Meta Family of Products"] else aff
              summary := summary
              businessImpact := businessImpact
              requiredSolutions := sanitizeStringList (jsonGet parsed "requiredSolutions")
              competitorResponses := sanitizeStringList (jsonGet parsed "competitorResponses")
              impactScore := normalizeScore (jsonGet parsed "impactScore")
              likelihoodScore := normalizeScore (jsonGet parsed "likelihoodScore")
              confidenceScore := normalizeScore (jsonGet parsed "confidenceScore")
              chiliScore := normalizeScore (jsonGet parsed "chiliScore") }

/-! ## crawler.ts: entity decoding and HTML stripping -/

/-- The apostrophe as a one-character string. -/
def aposStr : String := String.singleton apos

/-- The double quote as a one-character string. -/
def dquoteStr : String := String.singleton dquote

/-- crawler.ts decodeEntities (lines 100-110): the chained global
    replaces, in source order. -/
def decodeEntities (raw : String) : String :=
  ((((((((raw.replace "&apos;" aposStr).replace "&#039;" aposStr).replace
    "&#x27;" aposStr).replace "&quot;" dquoteStr).replace "&nbsp;" " ").replace
    "&amp;" "&").replace "&lt;" "<").replace "&gt;" ">")

/-- Global replace of lazily-matched case-insensitive blocks
    (openTok [\s\S]*? closeTok) by a single space, as in the script/style
    removals.  An opening token without a later closing token matches
    nothing and scanning stops. -/
def removeBlocksAux (openLower closeLower : List Char) : Nat → List Char → List Char
  | 0, cs => cs
  | fuel + 1, cs =>
    match charsFindSub (cs.map Char.toLower) openLower with
    | none => cs
    | some i =>
      let afterOpen := (cs.drop i).drop openLower.length
      match charsFindSub (afterOpen.map Char.toLower) closeLower with
      | none => cs
      | some j =>
        cs.take i ++ ' ' ::
          removeBlocksAux openLower closeLower fuel (afterOpen.drop (j + closeLower.length))

/-- String form of `removeBlocksAux`. -/
def jsRemoveBlocksCI (openTok closeTok s : String) : String :=
  String.mk (removeBlocksAux openTok.toLower.toList closeTok.toLower.toList
    (s.length + 1) s.toList)

/-- Global replace of tags by a space: `<[^>]*>` when `minOne` is false
    (crawler.ts stripHtml) and `<[^>]+>` when true (ingest.ts
    sanitizeText, where the empty tag <> does not match). -/
def stripTagsAux (minOne : Bool) : Nat → List Char → List Char
  | 0, cs => cs
  | _ + 1, [] => []
  | fuel + 1, c :: rest =>
    if c = '<' then
      match rest.findIdx? (fun d => d = '>') with
      | some k =>
        if minOne ∧ k = 0 then '<' :: stripTagsAux minOne fuel rest
        else ' ' :: stripTagsAux minOne fuel (rest.drop (k + 1))
      | none => c :: rest
    else c :: stripTagsAux minOne fuel rest

/-- crawler.ts stripHtml (lines 61-68): script blocks, style blocks,
    `<[^>]*>`, whitespace collapse, trim. -/
def stripHtml (text : String) : String :=
  let s1 := jsRemoveBlocksCI "<script" "</script>" text
  let s2 := jsRemoveBlocksCI "<style" "</style>" s1
  let s3 := String.mk (stripTagsAux false (s2.length + 1) s2.toList)
  (jsReplaceWsRuns " " s3).trim

/-! ## crawler.ts: tag and link extraction -/

/-- The direct branch of parseTag: the regex
    <tag[^>]*> capture-lazy </tag> with the /i flag.  Candidate opening
    positions are tried left to right; for each, the tag must close with
    the first following right angle bracket and a closing tag must occur
    later; the lazy capture ends at the earliest closing tag. -/
def parseTagDirect (openLower closeLower : List Char) : Nat → List Char → Option String
  | 0, _ => none
  | fuel + 1, cs =>
    match charsFindSub (cs.map Char.toLower) openLower with
    | none => none
    | some i =>
      let afterOpen := (cs.drop i).drop openLower.length
      match afterOpen.findIdx? (fun c => c = '>') with
      | none => none
      | some j =>
        let content := afterOpen.drop (j + 1)
        match charsFindSub (content.map Char.toLower) closeLower with
        | none => parseTagDirect openLower closeLower fuel (cs.drop (i + 1))
        | some m => some (String.mk (content.take m))

/-- One candidate of the atom-link fallback at offset `q` after a
    literal `<link`: the regex tail [^>]*href=["'] capture [^"']+ ["'] [^>]*>
    anchored so that `[^>]*` covers the first `q` characters. -/
def atomHrefAt (after : List Char) (q : Nat) : Option String :=
  let tailq := after.drop q
  if charsHasPrefix tailq "href=".toList then
    match tailq.drop 5 with
    | qc :: rest =>
      if qc = dquote ∨ qc = apos then
        let cap := rest.takeWhile (fun c => ¬ (c = dquote ∨ c = apos))
        if cap.isEmpty then none
        else
          match rest.drop cap.length with
          | _ :: rest3 => if rest3.contains '>' then some (String.mk cap) else none
          | [] => none
      else none
    | [] => none
  else none

/-- The atom-link fallback inside parseTag (lines 92-95):
    /<link[^>]*href=["']([^"']+)["'][^>]*>/ (case-sensitive).  `<link`
    positions are tried left to right; within one, the greedy [^>]*
    tries the latest href= candidate first; candidates may not cross a
    right angle bracket before href=. -/
def findAtomHref : Nat → List Char → Option String
  | 0, _ => none
  | fuel + 1, cs =>
    match charsFindSub cs "<link".toList with
    | none => none
    | some p =>
      let after := cs.drop (p + 5)
      let spanLen := (after.takeWhile (fun c => c ≠ '>')).length
      match (List.range (spanLen + 1)).reverse.findSome? (fun q => atomHrefAt after q) with
      | some cap => some cap
      | none => findAtomHref fuel (cs.drop (p + 1))

/-- crawler.ts parseTag (lines 86-98): the direct tag match (a truthy,
    i.e. non-empty, capture is entity-decoded, trimmed and HTML-stripped),
    else the atom href fallback, else null. -/
def parseTag (xml tag : String) : Option String :=
  let cs := xml.toList
  let fallback : Option String :=
    match findAtomHref (cs.length + 1) cs with
    | some href => some href.trim
    | none => none
  match parseTagDirect ("<" ++ tag).toLower.toList ("</" ++ tag ++ ">").toLower.toList
      (cs.length + 1) cs with
  | some cap => if cap ≠ "" then some (stripHtml ((decodeEntities cap).trim)) else fallback
  | none => fallback

/-- The plain href fallback of extractItemLink:
    /href=["']([^"']+)["']/i, leftmost match. -/
def hrefAnywhere : Nat → List Char → Option String
  | 0, _ => none
  | fuel + 1, cs =>
    match charsFindSub (cs.map Char.toLower) "href=".toList with
    | none => none
    | some p =>
      let rest := cs.drop (p + 5)
      match rest with
      | qc :: rest2 =>
        if qc = dquote ∨ qc = apos then
          let cap := rest2.takeWhile (fun c => ¬ (c = dquote ∨ c = apos))
          if cap.isEmpty ∨ (rest2.drop cap.length).isEmpty then
            hrefAnywhere fuel (cs.drop (p + 1))
          else some (String.mk cap)
        else hrefAnywhere fuel (cs.drop (p + 1))
      | [] => none

/-- crawler.ts extractItemLink (lines 112-124): the link tag via parseTag
    (truthy result), else any href attribute, else the empty string. -/
def extractItemLink (entry : String) : String :=
  let hrefFallback :=
    match hrefAnywhere (entry.length + 1) entry.toList with
    | some h => h
    | none => ""
  match parseTag entry "link" with
  | some s => if s ≠ "" then s else hrefFallback
  | none => hrefFallback

/-! ## crawler.ts: URL normalization -/

/-- Split an http(s) URL into scheme and remainder. -/
def splitSchemeRest (u : String) : Option (String × String) :=
  if u.startsWith "http://" then some ("http", u.drop 7)
  else if u.startsWith "https://" then some ("https", u.drop 8)
  else none

/-- Modelled resolution of `new URL(rel, base).toString()`: absolute URLs
    of any scheme pass through; against an http(s) base, protocol-relative,
    root-relative, query, fragment and relative-path references resolve by
    string composition.  Dot-segment and percent normalization, and the
    trailing-slash normalization of toString, are not modelled; `none`
    models the constructor throwing.  No claim depends on a resolved
    value. -/
def urlResolve (rel base : String) : Option String :=
  let hasScheme : Bool :=
    match charsFindSub rel.toList "://".toList with
    | some i =>
        decide (0 < i) && (rel.toList.take i).all (fun c =>
          c.isAlpha || c.isDigit || c == '+' || c == '-' || c == '.')
    | none => false
  if hasScheme then some rel
  else
    match splitSchemeRest base with
    | none => none
    | some (scheme, rest) =>
      let host := String.mk (rest.toList.takeWhile (fun c => c ≠ '/' ∧ c ≠ '?' ∧ c ≠ '#'))
      if host = "" then none
      else
        let origin := scheme ++ "://" ++ host
        let path0 := String.mk ((rest.toList.drop host.length).takeWhile
          (fun c => c ≠ '?' ∧ c ≠ '#'))
        let path := if path0 = "" then "/" else path0
        if rel.startsWith "//" then some (scheme ++ ":" ++ rel)
        else if rel.startsWith "/" then some (origin ++ rel)
        else if rel.startsWith "?" then some (origin ++ path ++ rel)
        else if rel.startsWith "#" then some (origin ++ path ++ rel)
        else
          let tailLen := (path.toList.reverse.takeWhile (fun c => c ≠ '/')).length
          let dir := String.mk (path.toList.take (path.toList.length - tailLen))
          some (origin ++ dir ++ rel)

/-- crawler.ts normalizeUrl (lines 70-84). -/
def normalizeUrl (rawUrl fallbackBase : String) : String :=
  if rawUrl = "" then ""
  else
    let trimmed := rawUrl.trim
    if trimmed = "" then ""
    else if trimmed.startsWith "http://" ∨ trimmed.startsWith "https://" then trimmed
    else
      match urlResolve trimmed fallbackBase with
      | some resolved => resolved
      | none => trimmed

/-! ## crawler.ts: feed parsing -/

/-- Global case-insensitive lazy block matching, as in
    /<item[\s\S]*?<\/item>/gi: each match runs from an opening token to
    the earliest closing token; scanning resumes after the match. -/
def matchLazyBlocksCI (openLower closeLower : List Char) : Nat → List Char → List (List Char)
  | 0, _ => []
  | fuel + 1, cs =>
    match charsFindSub (cs.map Char.toLower) openLower with
    | none => []
    | some i =>
      let start := cs.drop i
      let afterOpen := start.drop openLower.length
      match charsFindSub (afterOpen.map Char.toLower) closeLower with
      | none => []
      | some j =>
        let blockLen := openLower.length + j + closeLower.length
        start.take blockLen ::
          matchLazyBlocksCI openLower closeLower fuel (start.drop blockLen)

/-- JS `a || b` on strings: the empty string is falsy. -/
def jsOr (a b : String) : String := if a = "" then b else a

/-- The CrawlInput one feed entry produces (the field computations of
    parseFeedText lines 144-163, hoisted into a helper). -/
def feedEntryItem (sourceUrl entry : String) : CrawlInput :=
  let rawTitle := parseTag entry "title"
  let rawDescription :=
    jsOr (jsOr ((parseTag entry "description").getD "")
      ((parseTag entry "summary").getD "")) ((parseTag entry "content").getD "")
  let rawLink := extractItemLink entry
  let title := jsOr (rawTitle.getD "").trim "Untitled feed item"
  let url := normalizeUrl rawLink sourceUrl
  let p := jsOr ((parseTag entry "pubDate").getD "") ((parseTag entry "published").getD "")
  { title := title
    publishedAt := if p = "" then none else some p
    url := url
    summary := jsOr rawDescription title
    rawText := (title ++ ". " ++ rawDescription).trim }

/-- The dedupe key of parseFeedText line 151: lower-cased url::title. -/
def feedDedupeKey (it : CrawlInput) : String :=
  it.url.toLower ++ "::" ++ it.title.toLower

/-- The per-entry loop of parseFeedText (lines 142-164), carrying the
    seen-key set and the accumulated items; the items.length bound is the
    MAX_ITEMS_PER_FEED = 5 break. -/
def parseFeedGo (sourceUrl : String) : List String → List String → List CrawlInput → List CrawlInput
  | [], _, items => items
  | entry :: rest, seen, items =>
    if items.length ≥ 5 then items
    else
      let it := feedEntryItem sourceUrl entry
      let dk := feedDedupeKey it
      if it.title = "" ∨ it.url = "" ∨ seen.contains dk then
        parseFeedGo sourceUrl rest seen items
      else
        parseFeedGo sourceUrl rest (dk :: seen) (items ++ [it])

/-- crawler.ts parseFeedText (lines 126-167): RSS item blocks then atom
    entry blocks, each parsed, deduplicated by the lower-cased url::title
    key and capped at five. -/
def parseFeedText (feedText sourceUrl : String) : List CrawlInput :=
  let cs := feedText.toList
  let itemBlocks := matchLazyBlocksCI "<item".toList "</item>".toList (cs.length + 1) cs
  let entryBlocks := matchLazyBlocksCI "<entry".toList "</entry>".toList (cs.length + 1) cs
  parseFeedGo sourceUrl ((itemBlocks ++ entryBlocks).map String.mk) [] []

/-! ## ingest.ts: text sanitization and the quality gate -/

/-- ingest.ts sanitizeText (lines 425-432): script blocks, style blocks,
    `<[^>]+>`, whitespace collapse, trim. -/
def sanitizeText (value : String) : String :=
  let s1 := jsRemoveBlocksCI "<script" "</script>" value
  let s2 := jsRemoveBlocksCI "<style" "</style>" s1
  let s3 := String.mk (stripTagsAux true (s2.length + 1) s2.toList)
  (jsReplaceWsRuns " " s3).trim

/-- The boilerplate alternatives of the quality gate's second test,
    /no specific regulatory details|source indicates|no details available/i. -/
def boilerplatePhrases : List String :=
  ["no specific regulatory details", "source indicates", "no details available"]

/-- The keyword alternatives of the quality gate's third test. -/
def regulatoryKeywords : List String :=
  ["regulation", "law", "bill", "act", "guideline", "compliance", "enforcement",
   "privacy", "online safety", "coppa", "dsa", "osa", "kosa"]

/-- ingest.ts isLowQualityAnalysis (lines 434-456).  String length is
    modelled as character count (the data is ASCII, where it coincides
    with the JS UTF-16 length). -/
def isLowQualityAnalysis (item : CrawledItem) (analysis : AnalyzedItem) : Bool :=
  let summary := sanitizeText analysis.summary
  let title := sanitizeText item.title
  let raw := (sanitizeText item.rawText).toLower
  if summary = "" ∨ summary.length < 60 then true
  else if boilerplatePhrases.any (fun p => strContainsCI summary p) then true
  else
    let combined := title ++ " " ++ summary ++ " " ++ raw
    if ¬ regulatoryKeywords.any (fun k => strContainsCI combined k) then true
    else false

/-! ## ingest.ts: jurisdiction splitting -/

/-- ingest.ts knownCountries (lines 337-353). -/
def knownCountries : List String :=
  ["united states", "usa", "united kingdom", "uk", "australia", "canada",
   "india", "japan", "south korea", "singapore", "brazil", "mexico",
   "european union", "eu", "european union and european economic area"]

/-- ingest.ts normalizeJurisdictionText. -/
def normalizeJurisdictionText (value : String) : String :=
  value.trim.toLower

/-- ingest.ts isLikelyCountry. -/
def isLikelyCountry (value : String) : Bool :=
  knownCountries.contains (normalizeJurisdictionText value)

/-- ingest.ts splitJurisdiction (lines 363-395): split on commas, trim,
    drop empties; with several segments prefer a known country at the end,
    then at the front, else first segment is the country.  The
    `parts[0] || "Unknown"` fallbacks are dead (filtered segments are
    non-empty) and mirrored by getD. -/
def splitJurisdiction (rawJurisdiction : String) : String × Option String :=
  let text := rawJurisdiction.trim
  if text = "" then ("Unknown", none)
  else
    let parts := ((text.splitOn ",").map String.trim).filter (fun p => p ≠ "")
    if parts.length > 1 then
      let first := parts.headD "Unknown"
      let last := (parts.getLast?).getD "Unknown"
      if isLikelyCountry last then
        let st := String.intercalate ", " (parts.take (parts.length - 1))
        (last, if st = "" then none else some st)
      else if isLikelyCountry first then
        let st := String.intercalate ", " (parts.drop 1)
        (first, if st = "" then none else some st)
      else
        (first, some (String.intercalate ", " (parts.drop 1)))
    else (text, none)

/-! ## ingest.ts: mapping helpers -/

/-- ingest.ts mapStage: the analyzed stage passes through. -/
def mapStage (item : AnalyzedItem) : Stage := item.stage

/-- ingest.ts mapAgeBracket: identity. -/
def mapAgeBracket (ageBracket : AgeBracket) : AgeBracket := ageBracket

/-- ingest.ts mapUnder16Applicability: true for each of the three
    brackets (kept literal, as in the source). -/
def mapUnder16Applicability (ageBracket : AgeBracket) : Bool :=
  (ageBracket == AgeBracket.b13_15) || (ageBracket == AgeBracket.b16_18) ||
    (ageBracket == AgeBracket.both)

/-- ingest.ts normalizeRequiredSolutions. -/
def normalizeRequiredSolutions (item : AnalyzedItem) : List String :=
  if item.requiredSolutions.length > 0 then item.requiredSolutions
  else ["Legal review", "Monitoring"]

/-- ingest.ts normalizeCompetitorResponses. -/
def normalizeCompetitorResponses (item : AnalyzedItem) : List String :=
  if item.competitorResponses.length > 0 then item.competitorResponses else []

/-- ingest.ts normalizeAffectedProducts. -/
def normalizeAffectedProducts (item : AnalyzedItem) : List String :=
  if item.affectedMetaProducts.length > 0 then item.affectedMetaProducts
  else ["Meta Platforms", "Meta Ads Products"]

/-- Modelled `new Date(s)` validity plus toISOString().split("T")[0]:
    restricted to ISO-prefixed strings YYYY-MM-DD..., whose date part is
    returned; other forms count as unparseable.  No claim depends on a
    parsed date value. -/
def jsDateToIsoDate (s : String) : Option String :=
  match s.toList with
  | y1 :: y2 :: y3 :: y4 :: '-' :: m1 :: m2 :: '-' :: d1 :: d2 :: _ =>
    if [y1, y2, y3, y4, m1, m2, d1, d2].all Char.isDigit then
      some (String.mk [y1, y2, y3, y4, '-', m1, m2, '-', d1, d2])
    else none
  | _ => none

/-- ingest.ts estimatePublishedDate (lines 458-469). -/
def estimatePublishedDate (item : CrawledItem) : Option String :=
  match item.publishedAt with
  | none => none
  | some s => jsDateToIsoDate s

/-! ## ingest.ts: within-pass dedup keys -/

/-- ingest.ts normalizeForHash (lines 471-473). -/
def normalizeForHash (value : String) : String :=
  ((jsReplaceWsRuns " " value).trim).toLower

/-- ingest.ts hashText: sha-1 of the normalized text, modelled as an
    injective tagging (claims only use key equality). -/
def hashText (value : String) : String :=
  "sha1:" ++ normalizeForHash value

/-- ingest.ts buildRegulationKey (lines 479-485). -/
def buildRegulationKey (item : CrawledItem) (analysis : AnalyzedItem) : String :=
  let jurisdiction := splitJurisdiction (jsOr analysis.jurisdiction item.source.jurisdiction)
  let country := normalizeForHash (jsOr jurisdiction.1 "unknown")
  let state := normalizeForHash (jurisdiction.2.getD "")
  let title := normalizeForHash (jsOr item.title "untitled")
  country ++ "|" ++ state ++ "|" ++ title

/-- ingest.ts buildDeduplicationKey (lines 487-493). -/
def buildDeduplicationKey (item : CrawledItem) (analysis : AnalyzedItem) : String :=
  let regulationKey := buildRegulationKey item analysis
  let normalizedUrl := item.url.trim.toLower
  let textHash := hashText (jsOr item.rawText (item.title ++ " " ++ item.summary))
  let contentKey := if normalizedUrl = "" then "text:" ++ textHash else normalizedUrl
  regulationKey ++ "::" ++ contentKey

/-! ## ingest.ts: persistence of one analysed item -/

/-- The five outcomes upsertAnalysedItem can report. -/
inductive UpsertOutcome where
  | created
  | updated
  | status_changed
  | unchanged
  | ignored
  deriving DecidableEq, Repr

/-- Conversion of an upsert-engine status to the per-item outcome. -/
def statusToOutcome : UpsertStatus → UpsertOutcome
  | UpsertStatus.created => UpsertOutcome.created
  | UpsertStatus.updated => UpsertOutcome.updated
  | UpsertStatus.status_changed => UpsertOutcome.status_changed
  | UpsertStatus.unchanged => UpsertOutcome.unchanged

/-- ingest.ts upsertAnalysedItem (lines 495-539): not-relevant and
    low-quality items are ignored without touching the store; otherwise
    the upsert engine decides. -/
def upsertAnalysedItem (db : Db) (item : CrawledItem) (analysis : AnalyzedItem)
    (now : String) : Except String (UpsertOutcome × Db) :=
  if !analysis.isRelevant then Except.ok (UpsertOutcome.ignored, db)
  else if isLowQualityAnalysis item analysis then Except.ok (UpsertOutcome.ignored, db)
  else
    let jurisdiction := splitJurisdiction (jsOr analysis.jurisdiction item.source.jurisdiction)
    let input : RegulationEventInput :=
      { title := sanitizeText item.title
        jurisdictionCountry := jurisdiction.1
        jurisdictionState := jurisdiction.2
        stage := mapStage analysis
        ageBracket := mapAgeBracket analysis.ageBracket
        isUnder16Applicable := mapUnder16Applicability analysis.ageBracket
        impactScore := (analysis.impactScore : Rat)
        likelihoodScore := (analysis.likelihoodScore : Rat)
        confidenceScore := (analysis.confidenceScore : Rat)
        chiliScore := (analysis.chiliScore : Rat)
        summary := sanitizeText analysis.summary
        businessImpact := sanitizeText analysis.businessImpact
        requiredSolutions := normalizeRequiredSolutions analysis
        affectedMetaProducts := normalizeAffectedProducts analysis
        competitorResponses := normalizeCompetitorResponses analysis
        rawSourceText := item.rawText
        provenanceLinks := item.provenanceLinks
        effectiveDate := none
        publishedDate := estimatePublishedDate item
        sourceName := item.source.name
        sourceUrl := item.source.url
        sourceJurisdiction := item.source.jurisdiction
        sourceAuthorityType := item.source.authorityType
        sourceReliabilityTier := item.source.reliabilityTier }
    match upsertRegulationEvent db input now with
    | Except.error e => Except.error e
    | Except.ok (result, db') => Except.ok (statusToOutcome result.status, db')

/-! ## ingest.ts: the pipeline -/

/-- crawler.ts `CrawlSourceResult`. -/
structure CrawlSourceResult where
  sourceId : String
  itemCount : Nat
  error : Option String
  deriving DecidableEq, Repr

/-- crawler.ts `CrawlResult`. -/
structure CrawlResult where
  items : List CrawledItem
  sourceResults : List CrawlSourceResult
  deriving DecidableEq, Repr

/-- ingest.ts `CrawlSummary`; the status is one of completed, partial
    (`partialRun`), failed. -/
structure CrawlSummary where
  runId : Nat
  status : CrawlRunStatus
  startedAt : String
  finishedAt : String
  sourcesAttempted : Nat
  sourcesSuccess : Nat
  sourcesFailed : Nat
  itemsDiscovered : Nat
  eventsCreated : Nat
  eventsUpdated : Nat
  eventsStatusChanged : Nat
  eventsIgnored : Nat
  sourceErrors : List (String × String)
  deriving DecidableEq, Repr

/-- The environment of one pipeline invocation: the outcome of
    crawlSources (`error` models it throwing), the per-item settled
    result of analyzeCrawledItem (`error` models a rejected promise),
    and the wall clock (every Date.now() of the pass, collapsed to one
    timestamp, which no claim distinguishes). -/
structure PipelineEnv where
  crawl : Except String CrawlResult
  analyze : CrawledItem → Except String AnalyzedItem
  now : String

/-- The pass counters of runIngestionPipeline. -/
structure PassCounters where
  itemsDiscovered : Nat
  eventsCreated : Nat
  eventsUpdated : Nat
  eventsStatusChanged : Nat
  eventsIgnored : Nat
  deriving DecidableEq, Repr

/-- All-zero counters (pass start). -/
def zeroCounters : PassCounters := ⟨0, 0, 0, 0, 0⟩

/-- Mutable state of the write loop: the store, the seen dedup keys and
    the counters. -/
structure PassState where
  db : Db
  seen : List String
  counters : PassCounters

/-- Counter bump for one upsert outcome (the if/else chain of ingest.ts
    lines 611-614): `unchanged` bumps nothing. -/
def bumpOutcome (c : PassCounters) : UpsertOutcome → PassCounters
  | UpsertOutcome.created => { c with eventsCreated := c.eventsCreated + 1 }
  | UpsertOutcome.updated => { c with eventsUpdated := c.eventsUpdated + 1 }
  | UpsertOutcome.status_changed => { c with eventsStatusChanged := c.eventsStatusChanged + 1 }
  | UpsertOutcome.ignored => { c with eventsIgnored := c.eventsIgnored + 1 }
  | UpsertOutcome.unchanged => c

/-- One iteration of the write loop (ingest.ts lines 593-620): count the
    item discovered; a rejected analysis or a repeated dedup key or a
    throwing upsert counts as ignored; otherwise the outcome's counter
    bumps.  On an upsert error the store snapshot is kept (the sources
    table side effect preceding a failed insert is not observable by any
    claim). -/
def processItem (env : PipelineEnv) (st : PassState) (item : CrawledItem) : PassState :=
  let c := { st.counters with itemsDiscovered := st.counters.itemsDiscovered + 1 }
  match env.analyze item with
  | Except.error _ =>
      { st with counters := { c with eventsIgnored := c.eventsIgnored + 1 } }
  | Except.ok analysis =>
    let dk := buildDeduplicationKey item analysis
    if st.seen.contains dk then
      { st with counters := { c with eventsIgnored := c.eventsIgnored + 1 } }
    else
      let seen' := st.seen ++ [dk]
      match upsertAnalysedItem st.db item analysis env.now with
      | Except.error _ =>
          { db := st.db, seen := seen',
            counters := { c with eventsIgnored := c.eventsIgnored + 1 } }
      | Except.ok (outcome, db') =>
          { db := db', seen := seen', counters := bumpOutcome c outcome }

/-- The write phase over all items.  The analysis batches
    (Promise.allSettled over slices of BATCH_SIZE) preserve per-item
    order and have no store effect, so the pass is the fold of
    processItem in item order. -/
def processItems (env : PipelineEnv) : PassState → List CrawledItem → PassState
  | st, [] => st
  | st, item :: rest => processItems env (processItem env st item) rest

/-- Per-source tallies of the source-result loop (ingest.ts lines
    564-577): results without a matching selected source are skipped. -/
structure SourceTally where
  success : Nat
  failed : Nat
  errors : List (String × String)
  deriving DecidableEq, Repr

/-- The source-result loop. -/
def tallySourceResults (selected : List SourceRecord) :
    List CrawlSourceResult → SourceTally
  | [] => { success := 0, failed := 0, errors := [] }
  | res :: rest =>
    let tail := tallySourceResults selected rest
    if (selected.find? (fun src => src.id == res.sourceId)).isNone then tail
    else
      match res.error with
      | some msg =>
          { tail with
            failed := tail.failed + 1
            errors := (res.sourceId, msg) :: tail.errors }
      | none => { tail with success := tail.success + 1 }

/-- ingest.ts runIngestionPipeline (lines 541-673).  Source selection
    from the static registry (sources.ts) happens before this point; the
    selected list is a parameter.  The crawl run is created `running`,
    then finalized exactly once: completed/partial in the try branch,
    failed in the catch branch (whose counters are all still zero, since
    only crawlSources can throw there) with the error re-raised. -/
def runIngestionPipeline (selected : List SourceRecord) (env : PipelineEnv)
    (db : Db) : Except String CrawlSummary × Db :=
  let step := createCrawlRun db env.now
  let runId := step.1
  let db0 := step.2
  match env.crawl with
  | Except.error msg =>
      let dbF := finalizeCrawlRun db0 runId
        { status := CrawlRunStatus.failed
          sourcesAttempted := 0
          sourcesSuccess := 0
          sourcesFailed := 0
          itemsDiscovered := 0
          eventsCreated := 0
          eventsUpdated := 0
          eventsStatusChanged := 0
          eventsIgnored := 0 } env.now
      (Except.error msg, dbF)
  | Except.ok crawlResult =>
      let tally := tallySourceResults selected crawlResult.sourceResults
      let finalState := processItems env
        { db := db0, seen := [], counters := zeroCounters } crawlResult.items
      let c := finalState.counters
      let status :=
        if tally.failed > 0 then CrawlRunStatus.partialRun else CrawlRunStatus.completed
      let dbF := finalizeCrawlRun finalState.db runId
        { status := status
          sourcesAttempted := crawlResult.sourceResults.length
          sourcesSuccess := tally.success
          sourcesFailed := tally.failed
          itemsDiscovered := c.itemsDiscovered
          eventsCreated := c.eventsCreated
          eventsUpdated := c.eventsUpdated
          eventsStatusChanged := c.eventsStatusChanged
          eventsIgnored := c.eventsIgnored } env.now
      (Except.ok
        { runId := runId
          status := status
          startedAt := env.now
          finishedAt := env.now
          sourcesAttempted := crawlResult.sourceResults.length
          sourcesSuccess := tally.success
          sourcesFailed := tally.failed
          itemsDiscovered := c.itemsDiscovered
          eventsCreated := c.eventsCreated
          eventsUpdated := c.eventsUpdated
          eventsStatusChanged := c.eventsStatusChanged
          eventsIgnored := c.eventsIgnored
          sourceErrors := tally.errors }, dbF)

/-- Whether one write-loop iteration, run from state `st`, would report
    the upsert outcome `unchanged` (the only outcome that bumps no
    counter); used to relate the counters to the item count. -/
def itemIsUnchanged (env : PipelineEnv) (st : PassState) (item : CrawledItem) : Bool :=
  match env.analyze item with
  | Except.error _ => false
  | Except.ok analysis =>
    let dk := buildDeduplicationKey item analysis
    if st.seen.contains dk then false
    else
      match upsertAnalysedItem st.db item analysis env.now with
      | Except.error _ => false
      | Except.ok (outcome, _) => outcome == UpsertOutcome.unchanged

/-- Number of items of the pass whose iteration reports `unchanged`,
    replayed along the same fold as processItems. -/
def countUnchanged (env : PipelineEnv) : PassState → List CrawledItem → Nat
  | _, [] => 0
  | st, item :: rest =>
      (if itemIsUnchanged env st item then 1 else 0) +
        countUnchanged env (processItem env st item) rest

/-! ## Claim-statement predicates -/

/-- The content fields of a stored row compared against the raw candidate
    (the enumeration of §4.7: stage, age bracket, applicability, the four
    scores, summary, business impact, the three lists, raw text,
    provenance).  The list columns store JSON text, so list identity is
    equality with the candidate's stringified lists. -/
def rowContentMatches (r : RegulationEventRow) (e : RegulationEventInput) : Prop :=
  r.stage = e.stage ∧
  r.age_bracket = e.ageBracket ∧
  r.is_under16_applicable = e.isUnder16Applicable ∧
  (r.impact_score : Rat) = e.impactScore ∧
  (r.likelihood_score : Rat) = e.likelihoodScore ∧
  (r.confidence_score : Rat) = e.confidenceScore ∧
  (r.chili_score : Rat) = e.chiliScore ∧
  r.summary = some e.summary ∧
  r.business_impact = e.businessImpact ∧
  r.required_solutions = stringifyJsonArray e.requiredSolutions ∧
  r.affected_products = stringifyJsonArray e.affectedMetaProducts ∧
  r.competitor_responses = stringifyJsonArray e.competitorResponses ∧
  r.raw_source_text = some e.rawSourceText ∧
  r.provenance_links = stringifyJsonArray e.provenanceLinks

/-- `rowContentMatches` without the under-16 applicability conjunct. -/
def rowContentMatchesExceptFlag (r : RegulationEventRow) (e : RegulationEventInput) : Prop :=
  r.stage = e.stage ∧
  r.age_bracket = e.ageBracket ∧
  (r.impact_score : Rat) = e.impactScore ∧
  (r.likelihood_score : Rat) = e.likelihoodScore ∧
  (r.confidence_score : Rat) = e.confidenceScore ∧
  (r.chili_score : Rat) = e.chiliScore ∧
  r.summary = some e.summary ∧
  r.business_impact = e.businessImpact ∧
  r.required_solutions = stringifyJsonArray e.requiredSolutions ∧
  r.affected_products = stringifyJsonArray e.affectedMetaProducts ∧
  r.competitor_responses = stringifyJsonArray e.competitorResponses ∧
  r.raw_source_text = some e.rawSourceText ∧
  r.provenance_links = stringifyJsonArray e.provenanceLinks

/-- Invariants every regulation_events row written by the code satisfies:
    the score CHECK constraints, and the non-empty summary/business-impact
    defaults the insert and update statements always write. -/
def rowWellFormed (r : RegulationEventRow) : Prop :=
  1 ≤ r.impact_score ∧ r.impact_score ≤ 5 ∧
  1 ≤ r.likelihood_score ∧ r.likelihood_score ≤ 5 ∧
  1 ≤ r.confidence_score ∧ r.confidence_score ≤ 5 ∧
  1 ≤ r.chili_score ∧ r.chili_score ≤ 5 ∧
  r.summary ≠ some "" ∧ r.business_impact ≠ ""

/-! ## Concrete example data (used by witnesses and counterexamples) -/

/-- A candidate record mirroring the repository's own upsert test data. -/
def exampleEvent : RegulationEventInput :=
  { title := "Teen Safety Transparency Bill"
    jurisdictionCountry := "United States"
    jurisdictionState := some "California"
    stage := Stage.introduced
    ageBracket := AgeBracket.b13_15
    isUnder16Applicable := true
    impactScore := 4
    likelihoodScore := 4
    confidenceScore := 4
    chiliScore := 3
    summary := "Draft rule for age assurance and content safety."
    businessImpact := "Moderate product updates needed."
    requiredSolutions := ["Age assurance", "Content controls"]
    affectedMetaProducts := ["Instagram", "Facebook"]
    competitorResponses := ["TikTok: monitoring"]
    rawSourceText := "Calif. draft text includes age-verification requirements."
    provenanceLinks := ["https://example.gov/some-rule"]
    effectiveDate := none
    publishedDate := some "2026-01-30"
    sourceName := "California Regulator"
    sourceUrl := "https://leginfo.legislature.ca.gov"
    sourceJurisdiction := "California"
    sourceAuthorityType := AuthorityType.state
    sourceReliabilityTier := 5 }

/-- The stored row that upserting `exampleEvent` into an empty store
    creates (written out literally). -/
def exampleRow : RegulationEventRow :=
  { id := "sha1:united states|california|teen safety transparency bill"
    title := "Teen Safety Transparency Bill"
    jurisdiction_country := "United States"
    jurisdiction_state := "California"
    age_bracket := AgeBracket.b13_15
    stage := Stage.introduced
    is_under16_applicable := true
    impact_score := 4
    likelihood_score := 4
    confidence_score := 4
    chili_score := 3
    summary := some "Draft rule for age assurance and content safety."
    business_impact := "Moderate product updates needed."
    required_solutions := stringifyJsonArray ["Age assurance", "Content controls"]
    affected_products := stringifyJsonArray ["Instagram", "Facebook"]
    competitor_responses := stringifyJsonArray ["TikTok: monitoring"]
    raw_source_text := some "Calif. draft text includes age-verification requirements."
    provenance_links := stringifyJsonArray ["https://example.gov/some-rule"]
    effective_date := none
    published_date := some "2026-01-30"
    source_id := 1
    source_url := "https://leginfo.legislature.ca.gov"
    created_at := "2026-02-01T00:00:00.000Z"
    updated_at := "2026-02-01T00:00:00.000Z"
    last_crawled_at := some "2026-02-01T00:00:00.000Z" }

/-- The sources-table row accompanying `exampleRow`. -/
def exampleSourceRow : SourceRow :=
  { id := 1
    name := "California Regulator"
    url := "https://leginfo.legislature.ca.gov"
    authority_type := AuthorityType.state
    jurisdiction := "California"
    reliability_tier := 5
    last_crawled_at := some "2026-02-01T00:00:00.000Z"
    created_at := "2026-02-01T00:00:00.000Z" }

/-- A store holding exactly the example row. -/
def exampleDb : Db :=
  { sources := [exampleSourceRow]
    events := [exampleRow]
    statusChanges := []
    crawlRuns := [] }

/-- The example candidate differing from the stored row only in the
    under-16 applicability flag. -/
def exampleEventFlagOff : RegulationEventInput :=
  { exampleEvent with isUnder16Applicable := false }

/-- The example candidate re-discovered with a lower-cased country and a
    different source URL (same fact, same lower-cased identity key). -/
def exampleEventLowerCountry : RegulationEventInput :=
  { exampleEvent with
    jurisdictionCountry := "united states"
    sourceUrl := "https://other.example/teen-bill"
    sourceName := "Other Mirror" }

/-- The example candidate with only the stage moved (introduced → passed). -/
def exampleEventPassed : RegulationEventInput :=
  { exampleEvent with stage := Stage.passed }

deriving instance DecidableEq for Except

instance (r : RegulationEventRow) (e : RegulationEventInput) :
    Decidable (rowContentMatches r e) := by
  unfold rowContentMatches; infer_instance

instance (r : RegulationEventRow) (e : RegulationEventInput) :
    Decidable (rowContentMatchesExceptFlag r e) := by
  unfold rowContentMatchesExceptFlag; infer_instance

instance (r : RegulationEventRow) : Decidable (rowWellFormed r) := by
  unfold rowWellFormed; infer_instance

/-- A concrete source record for classifier examples. -/
def exampleSource : SourceRecord :=
  { id := "ca-leg"
    name := "California State Legislature"
    url := "https://leginfo.legislature.ca.gov"
    kind := "rss"
    jurisdiction := "California, United States"
    authorityType := AuthorityType.state
    reliabilityTier := 5
    searchQuery := none
    notes := none }

/-- A concrete crawled item for classifier examples. -/
def exampleItem : CrawledItem :=
  { title := "Teen Safety Transparency Bill"
    publishedAt := some "2026-01-30"
    url := "https://leginfo.legislature.ca.gov/bill/teen-safety"
    summary := "A bill about online safety for minors."
    rawText := "The bill requires age verification for minors on social platforms."
    source := exampleSource
    provenanceLinks := ["https://leginfo.legislature.ca.gov",
                        "https://leginfo.legislature.ca.gov/bill/teen-safety"] }

/-- A pipeline environment whose crawl succeeds with one item and whose
    classification rejects for every item. -/
def exampleFailingAnalysisEnv : PipelineEnv :=
  { crawl := Except.ok { items := [exampleItem], sourceResults := [] }
    analyze := fun _ => Except.error "classification failed"
    now := "2026-03-01T00:00:00.000Z" }

/-- A relevant classifier verdict whose summary is too thin to pass the
    quality gate. -/
def exampleThinAnalysis : AnalyzedItem :=
  { isRelevant := true
    jurisdiction := "California, United States"
    stage := Stage.introduced
    ageBracket := AgeBracket.both
    affectedMetaProducts := ["Instagram"]
    summary := "Too short."
    businessImpact := "Unknown"
    requiredSolutions := []
    competitorResponses := []
    impactScore := 3
    likelihoodScore := 3
    confidenceScore := 3
    chiliScore := 3 }

/-- The spec scenario feed: two item blocks with the same link and title
    but different descriptions. -/
def feedScenarioDuplicates : String :=
  "<rss><item><title>Teen Act</title><link>https://ex.gov/a</link><description>First text</description></item><item><title>Teen Act</title><link>https://ex.gov/a</link><description>Second text</description></item></rss>"

/-- A feed whose single item block has no title tag. -/
def feedScenarioUntitled : String :=
  "<rss><item><link>https://ex.gov/b</link><description>Only description here</description></item></rss>"

/-- The four event-outcome counters summed (the quantity the claim about
    counter partitioning tracks; `unchanged` contributes to none). -/
def counterSum (c : PassCounters) : Nat :=
  c.eventsCreated + c.eventsUpdated + c.eventsStatusChanged + c.eventsIgnored

/-- A pipeline environment whose crawl itself throws. -/
def exampleCrashingEnv : PipelineEnv :=
  { crawl := Except.error "network down"
    analyze := fun _ => Except.error "unused"
    now := "2026-03-01T00:00:00.000Z" }

/-- The summary the pipeline returns for `exampleFailingAnalysisEnv` over
    an empty store (one discovered item, counted ignored). -/
def examplePipelineSummary : CrawlSummary :=
  { runId := 1
    status := CrawlRunStatus.completed
    startedAt := "2026-03-01T00:00:00.000Z"
    finishedAt := "2026-03-01T00:00:00.000Z"
    sourcesAttempted := 0
    sourcesSuccess := 0
    sourcesFailed := 0
    itemsDiscovered := 1
    eventsCreated := 0
    eventsUpdated := 0
    eventsStatusChanged := 0
    eventsIgnored := 1
    sourceErrors := [] }

/-- The store state after that pass: only the finalized crawl-run row. -/
def examplePipelineDb : Db :=
  { sources := []
    events := []
    statusChanges := []
    crawlRuns := [{ id := 1
                    started_at := "2026-03-01T00:00:00.000Z"
                    finished_at := some "2026-03-01T00:00:00.000Z"
                    status := CrawlRunStatus.completed
                    sources_attempted := 0
                    sources_success := 0
                    sources_failed := 0
                    items_discovered := 1
                    events_created := 0
                    events_updated := 0
                    events_status_changed := 0
                    events_ignored := 1 }] }

/-! # Theorems -/

/-- upsertSource only touches the sources table. -/
theorem upsertSource_events (db : Db) (s : SourceInput) (now : String) :
    ((upsertSource db s now).2).events = db.events := by
  unfold upsertSource
  split <;> rfl

/-- upsertSource leaves the status-change table unchanged. -/
theorem upsertSource_statusChanges (db : Db) (s : SourceInput) (now : String) :
    ((upsertSource db s now).2).statusChanges = db.statusChanges := by
  unfold upsertSource
  split <;> rfl

/-- upsertSource leaves the crawl-run ledger unchanged. -/
theorem upsertSource_crawlRuns (db : Db) (s : SourceInput) (now : String) :
    ((upsertSource db s now).2).crawlRuns = db.crawlRuns := by
  unfold upsertSource
  split <;> rfl

/-- db.ts normalizeScore is the identity on integral values already in
    [1,5] (here: integer casts). -/
theorem normalizeScoreDb_intCast (n : Int) (h1 : 1 ≤ n) (h5 : n ≤ 5) :
    normalizeScoreDb (n : Rat) = n := by
  have hden : ((n : ℚ)).den = 1 := Rat.den_intCast n
  have hnum : ((n : ℚ)).num = n := Rat.num_intCast n
  have hlt : ¬ ((n : ℚ) < 1) := by exact_mod_cast not_lt.mpr h1
  have hgt : ¬ ((5 : ℚ) < (n : ℚ)) := by exact_mod_cast not_lt.mpr h5
  unfold normalizeScoreDb ratIsInteger
  simp [hden, hnum, hlt, hgt]

/-- C1: for every stored RegulationEvent and every candidate with the same
    identity key whose content (stage, age bracket, applicability flag, the
    four scores, summary, business impact, the three lists, raw text,
    provenance links) is identical to the stored row, upsertRegulationEvent
    returns status `unchanged`, inserts no row, appends no StatusChange,
    touches no crawl-run row, and rewrites the events table so that only
    the stored row's `last_crawled_at`/`updated_at` change. -/
theorem upsert_unchanged_frame (db : Db) (e : RegulationEventInput) (now : String)
    (r : RegulationEventRow)
    (hfound : findExistingEvent db.events (normalizeCountry e.jurisdictionCountry)
      (normalizeJurisdictionState e.jurisdictionState) e.title = some r)
    (hwf : rowWellFormed r) (hmatch : rowContentMatches r e) :
    (upsertRegulationEvent db e now).map
        (fun p => (p.1, p.2.events, p.2.statusChanges, p.2.crawlRuns)) =
      Except.ok
        ({ id := r.id, status := UpsertStatus.unchanged,
           wasStatusChange := false, previousStage := some r.stage },
         db.events.map (fun row =>
           if row.id == r.id then bumpCrawlTimestamps now row else row),
         db.statusChanges, db.crawlRuns) := by
  obtain ⟨hst, hab, _happ, him, hlk, hcf, hch, hsum, hbi, hrs, hap2, hcr, hraw, hpl⟩ := hmatch
  obtain ⟨hi1, hi5, hl1, hl5, hc1, hc5, hh1, hh5, hsne, hbne⟩ := hwf
  have hesum : e.summary ≠ "" := by
    intro h; exact hsne (by rw [hsum, h])
  have hebi : e.businessImpact ≠ "" := by
    intro h; exact hbne (by rw [hbi, h])
  have hnim : normalizeScoreDb e.impactScore = r.impact_score := by
    rw [← him]; exact normalizeScoreDb_intCast _ hi1 hi5
  have hnlk : normalizeScoreDb e.likelihoodScore = r.likelihood_score := by
    rw [← hlk]; exact normalizeScoreDb_intCast _ hl1 hl5
  have hncf : normalizeScoreDb e.confidenceScore = r.confidence_score := by
    rw [← hcf]; exact normalizeScoreDb_intCast _ hc1 hc5
  have hnch : normalizeScoreDb e.chiliScore = r.chili_score := by
    rw [← hch]; exact normalizeScoreDb_intCast _ hh1 hh5
  have hds : defaultedSummary e = e.summary := by
    unfold defaultedSummary; rw [if_neg hesum]
  have hdbi : defaultedBusinessImpact e = e.businessImpact := by
    unfold defaultedBusinessImpact; rw [if_neg hebi]
  have hwsf : eventWasStatusChange r e = false := by
    unfold eventWasStatusChange; simp [hst]
  have hhc : eventHasChanges r e = false := by
    unfold eventHasChanges
    simp [hwsf, hab, hsum, hbi, hrs, hap2, hcr, hraw, hpl, hnim, hnlk, hncf, hnch, hds, hdbi]
  simp only [upsertRegulationEvent, upsertSource_events, upsertSource_statusChanges,
    upsertSource_crawlRuns, hfound]
  simp [hhc, hwsf, Except.map, upsertSource_events, upsertSource_statusChanges,
    upsertSource_crawlRuns]

/-- C1 witness: the theorem applied to the example store and an identical
    re-crawled candidate. -/
theorem upsert_unchanged_frame_witness :
    (upsertRegulationEvent exampleDb exampleEvent "2026-03-01T00:00:00.000Z").map
        (fun p => (p.1, p.2.events, p.2.statusChanges, p.2.crawlRuns)) =
      Except.ok
        ({ id := exampleRow.id, status := UpsertStatus.unchanged,
           wasStatusChange := false, previousStage := some exampleRow.stage },
         exampleDb.events.map (fun row =>
           if row.id == exampleRow.id then bumpCrawlTimestamps "2026-03-01T00:00:00.000Z" row
           else row),
         exampleDb.statusChanges, exampleDb.crawlRuns) :=
  upsert_unchanged_frame exampleDb exampleEvent "2026-03-01T00:00:00.000Z" exampleRow
    (by with_unfolding_all decide) (by with_unfolding_all decide) (by with_unfolding_all decide)

/-- C7 counterexample: upserting the example candidate that differs from
    the stored row only in the under-16 applicability flag yields status
    `unchanged` (the claim requires `updated`), and the stored flag keeps
    its old value. -/
theorem upsert_flag_only_counterexample :
    (upsertRegulationEvent exampleDb exampleEventFlagOff "2026-03-01T00:00:00.000Z").map
        (fun p => (p.1.status, p.2.events.map (fun row => row.is_under16_applicable),
          p.2.statusChanges.length)) =
      Except.ok (UpsertStatus.unchanged, [true], 0) ∧
    (upsertRegulationEvent exampleDb exampleEventFlagOff "2026-03-01T00:00:00.000Z").map
        (fun p => p.1.status) ≠ Except.ok UpsertStatus.updated := by
  constructor
  · with_unfolding_all decide
  · with_unfolding_all decide

/-- C7 (amended): a candidate with the same identity key and identical
    compared content whose under-16 applicability flag differs from the
    stored row is treated as `unchanged` — the flag is not part of the
    change-detection set of upsertRegulationEvent, the new flag value is
    not persisted, and only the two timestamps are bumped; no StatusChange
    row is appended. -/
theorem upsert_flag_only_unchanged (db : Db) (e : RegulationEventInput) (now : String)
    (r : RegulationEventRow)
    (hfound : findExistingEvent db.events (normalizeCountry e.jurisdictionCountry)
      (normalizeJurisdictionState e.jurisdictionState) e.title = some r)
    (hwf : rowWellFormed r) (hmatch : rowContentMatchesExceptFlag r e)
    (hflag : r.is_under16_applicable ≠ e.isUnder16Applicable) :
    (upsertRegulationEvent db e now).map
        (fun p => (p.1, p.2.events, p.2.statusChanges, p.2.crawlRuns)) =
      Except.ok
        ({ id := r.id, status := UpsertStatus.unchanged,
           wasStatusChange := false, previousStage := some r.stage },
         db.events.map (fun row =>
           if row.id == r.id then bumpCrawlTimestamps now row else row),
         db.statusChanges, db.crawlRuns) := by
  obtain ⟨hst, hab, him, hlk, hcf, hch, hsum, hbi, hrs, hap2, hcr, hraw, hpl⟩ := hmatch
  obtain ⟨hi1, hi5, hl1, hl5, hc1, hc5, hh1, hh5, hsne, hbne⟩ := hwf
  have hesum : e.summary ≠ "" := by
    intro h; exact hsne (by rw [hsum, h])
  have hebi : e.businessImpact ≠ "" := by
    intro h; exact hbne (by rw [hbi, h])
  have hnim : normalizeScoreDb e.impactScore = r.impact_score := by
    rw [← him]; exact normalizeScoreDb_intCast _ hi1 hi5
  have hnlk : normalizeScoreDb e.likelihoodScore = r.likelihood_score := by
    rw [← hlk]; exact normalizeScoreDb_intCast _ hl1 hl5
  have hncf : normalizeScoreDb e.confidenceScore = r.confidence_score := by
    rw [← hcf]; exact normalizeScoreDb_intCast _ hc1 hc5
  have hnch : normalizeScoreDb e.chiliScore = r.chili_score := by
    rw [← hch]; exact normalizeScoreDb_intCast _ hh1 hh5
  have _hf := hflag
  have hds : defaultedSummary e = e.summary := by
    unfold defaultedSummary; rw [if_neg hesum]
  have hdbi : defaultedBusinessImpact e = e.businessImpact := by
    unfold defaultedBusinessImpact; rw [if_neg hebi]
  have hwsf : eventWasStatusChange r e = false := by
    unfold eventWasStatusChange; simp [hst]
  have hhc : eventHasChanges r e = false := by
    unfold eventHasChanges
    simp [hwsf, hab, hsum, hbi, hrs, hap2, hcr, hraw, hpl, hnim, hnlk, hncf, hnch, hds, hdbi]
  simp only [upsertRegulationEvent, upsertSource_events, upsertSource_statusChanges,
    upsertSource_crawlRuns, hfound]
  simp [hhc, hwsf, Except.map, upsertSource_events, upsertSource_statusChanges,
    upsertSource_crawlRuns]

/-- C7 amended-theorem witness: the flag-only candidate against the
    example store. -/
theorem upsert_flag_only_unchanged_witness :
    (upsertRegulationEvent exampleDb exampleEventFlagOff "2026-03-01T00:00:00.000Z").map
        (fun p => (p.1, p.2.events, p.2.statusChanges, p.2.crawlRuns)) =
      Except.ok
        ({ id := exampleRow.id, status := UpsertStatus.unchanged,
           wasStatusChange := false, previousStage := some exampleRow.stage },
         exampleDb.events.map (fun row =>
           if row.id == exampleRow.id then bumpCrawlTimestamps "2026-03-01T00:00:00.000Z" row
           else row),
         exampleDb.statusChanges, exampleDb.crawlRuns) :=
  upsert_flag_only_unchanged exampleDb exampleEventFlagOff "2026-03-01T00:00:00.000Z"
    exampleRow (by with_unfolding_all decide) (by with_unfolding_all decide)
    (by with_unfolding_all decide) (by with_unfolding_all decide)

/-- C2: for every stored RegulationEvent, upserting a candidate with the
    same identity key whose stage differs returns status `status_changed`,
    updates the stored row, and appends exactly one StatusChange row with
    `previous_stage` the prior stored stage and `new_stage` the candidate
    stage; and no upsert outcome other than `status_changed` appends a
    StatusChange row. -/
theorem upsert_status_change_contract :
    (∀ (db : Db) (e : RegulationEventInput) (now : String) (r : RegulationEventRow),
      findExistingEvent db.events (normalizeCountry e.jurisdictionCountry)
        (normalizeJurisdictionState e.jurisdictionState) e.title = some r →
      r.stage ≠ e.stage →
      (upsertRegulationEvent db e now).map
          (fun p => (p.1, p.2.events, p.2.statusChanges)) =
        Except.ok
          ({ id := r.id, status := UpsertStatus.status_changed,
             wasStatusChange := true, previousStage := some r.stage },
           db.events.map (fun row =>
             if row.id == r.id then
               applyEventUpdate e now (normalizeScoreDb e.impactScore)
                 (normalizeScoreDb e.likelihoodScore) (normalizeScoreDb e.confidenceScore)
                 (normalizeScoreDb e.chiliScore)
                 (defaultedSummary e) (defaultedBusinessImpact e)
                 e.rawSourceText row
             else row),
           db.statusChanges ++
             [{ event_id := r.id, previous_stage := r.stage,
                new_stage := e.stage, changed_at := now }])) ∧
    (∀ (db : Db) (e : RegulationEventInput) (now : String) (res : UpsertEventResult) (db' : Db),
      upsertRegulationEvent db e now = Except.ok (res, db') →
      res.status ≠ UpsertStatus.status_changed →
      db'.statusChanges = db.statusChanges) := by
  constructor
  · intro db e now r hfound hstage
    have hws : eventWasStatusChange r e = true := by
      unfold eventWasStatusChange; exact bne_iff_ne.mpr hstage
    have hhc : eventHasChanges r e = true := by
      unfold eventHasChanges; simp [hws]
    simp only [upsertRegulationEvent, upsertSource_events, upsertSource_statusChanges, hfound]
    simp [hws, hhc, Except.map, upsertSource_events, upsertSource_statusChanges]
  · intro db e now res db' h hne
    simp only [upsertRegulationEvent] at h
    split at h
    · split at h
      · simp at h
      · split at h
        · simp at h
        · have h2 := Except.ok.inj h
          have hdb : _ = db' := congrArg Prod.snd h2
          rw [← hdb]
          simp [upsertSource_statusChanges]
    · split at h <;> (try split at h) <;>
        first
        | (have h2 := Except.ok.inj h
           have hdb : _ = db' := congrArg Prod.snd h2
           rw [← hdb]
           simp [upsertSource_statusChanges]
           done)
        | (have h2 := Except.ok.inj h
           have hres : _ = res := congrArg Prod.fst h2
           exact absurd (by rw [← hres]) hne)

/-- C2 witness: moving the example event's stage from introduced to
    passed appends exactly the one expected StatusChange row, and the
    contract is applied at that concrete input. -/
theorem upsert_status_change_contract_witness :
    (upsertRegulationEvent exampleDb exampleEventPassed "2026-03-01T00:00:00.000Z").map
        (fun p => (p.1, p.2.events, p.2.statusChanges)) =
      Except.ok
        ({ id := exampleRow.id, status := UpsertStatus.status_changed,
           wasStatusChange := true, previousStage := some exampleRow.stage },
         exampleDb.events.map (fun row =>
           if row.id == exampleRow.id then
             applyEventUpdate exampleEventPassed "2026-03-01T00:00:00.000Z"
               (normalizeScoreDb exampleEventPassed.impactScore)
               (normalizeScoreDb exampleEventPassed.likelihoodScore)
               (normalizeScoreDb exampleEventPassed.confidenceScore)
               (normalizeScoreDb exampleEventPassed.chiliScore)
               (defaultedSummary exampleEventPassed)
               (defaultedBusinessImpact exampleEventPassed)
               exampleEventPassed.rawSourceText row
           else row),
         exampleDb.statusChanges ++
           [{ event_id := exampleRow.id, previous_stage := exampleRow.stage,
              new_stage := exampleEventPassed.stage,
              changed_at := "2026-03-01T00:00:00.000Z" }]) :=
  upsert_status_change_contract.1 exampleDb exampleEventPassed "2026-03-01T00:00:00.000Z"
    exampleRow (by with_unfolding_all decide) (by with_unfolding_all decide)

/-- C3 counterexample: the example fact re-discovered with the country
    spelled in lower case (same lower-cased identity triple, different
    source URL) does not resolve to the stored row: the case-sensitive
    lookup misses, the insert computes the same deterministic id, and the
    upsert throws a primary-key violation instead. -/
theorem upsert_lowercase_rediscovery_counterexample :
    upsertRegulationEvent exampleDb exampleEventLowerCountry "2026-03-01T00:00:00.000Z" =
      Except.error "UNIQUE constraint failed: regulation_events.id" := by
  with_unfolding_all decide

/-- C3 (amended): the deterministic event id is a pure function of the
    lower-cased (country, state, title) triple, so lower-case-equal
    candidates compute the same id; a candidate whose exact (country,
    state) and lower-cased title match a stored row resolves to that row
    and is never created anew; and a `created` outcome can only happen
    when no stored row carried that id — so a second upsert of the same
    lower-cased identity never produces a second row (when country or
    state differ only in case, it instead fails on the id primary key,
    as the counterexample shows). -/
theorem deterministic_id_dedup_contract :
    (∀ c1 s1 t1 c2 s2 t2 : String,
      c1.toLower = c2.toLower → s1.toLower = s2.toLower → t1.toLower = t2.toLower →
      deterministicEventId (dedupeKey c1 s1 t1) = deterministicEventId (dedupeKey c2 s2 t2)) ∧
    (∀ (db : Db) (e : RegulationEventInput) (now : String) (r : RegulationEventRow),
      findExistingEvent db.events (normalizeCountry e.jurisdictionCountry)
        (normalizeJurisdictionState e.jurisdictionState) e.title = some r →
      ∃ res db', upsertRegulationEvent db e now = Except.ok (res, db') ∧
        res.id = r.id ∧ res.status ≠ UpsertStatus.created ∧
        db'.events.length = db.events.length) ∧
    (∀ (db : Db) (e : RegulationEventInput) (now : String) (res : UpsertEventResult) (db' : Db),
      upsertRegulationEvent db e now = Except.ok (res, db') →
      res.status = UpsertStatus.created →
      ∀ row ∈ db.events, row.id ≠ res.id) := by
  refine ⟨?_, ?_, ?_⟩
  · intro c1 s1 t1 c2 s2 t2 h1 h2 h3
    unfold deterministicEventId dedupeKey
    rw [h1, h2, h3]
  · intro db e now r hfound
    simp only [upsertRegulationEvent, upsertSource_events, hfound]
    split
    · exact ⟨_, _, rfl, rfl, by simp, by simp [upsertSource_events]⟩
    · refine ⟨_, _, rfl, rfl, ?_, ?_⟩
      · split <;> simp
      · split <;> simp [upsertSource_events]
  · intro db e now res db' h hcreated row hrow
    simp only [upsertRegulationEvent] at h
    split at h
    · split at h
      · simp at h
      · split at h
        · simp at h
        · rename_i hany _
          have h2 := Except.ok.inj h
          have hres : _ = res := congrArg Prod.fst h2
          rw [← hres]
          intro hid
          apply hany
          rw [upsertSource_events]
          exact List.any_eq_true.mpr ⟨row, hrow, by simp [hid]⟩
    · split at h <;> (try split at h) <;>
        (have h2 := Except.ok.inj h
         have hres : _ = res := congrArg Prod.fst h2
         rw [← hres] at hcreated
         simp at hcreated)

/-- C3 amended-theorem witness: the three parts applied at concrete
    inputs — equal lower-cased triples give equal ids, and the example
    store resolves an exact-key candidate to the stored row without
    creating one. -/
theorem deterministic_id_dedup_contract_witness :
    deterministicEventId (dedupeKey "US" "CA" "Bill X") =
      deterministicEventId (dedupeKey "us" "ca" "bill x") ∧
    (∃ res db', upsertRegulationEvent exampleDb exampleEvent "2026-03-01T00:00:00.000Z" =
        Except.ok (res, db') ∧
      res.id = exampleRow.id ∧ res.status ≠ UpsertStatus.created ∧
      db'.events.length = exampleDb.events.length) :=
  ⟨deterministic_id_dedup_contract.1 "US" "CA" "Bill X" "us" "ca" "bill x"
      (by with_unfolding_all decide) (by with_unfolding_all decide)
      (by with_unfolding_all decide),
   deterministic_id_dedup_contract.2.1 exampleDb exampleEvent "2026-03-01T00:00:00.000Z"
      exampleRow (by with_unfolding_all decide)⟩

set_option maxRecDepth 8000 in
/-- C4 counterexample: with a credential configured and the service
    answering 401, analyzeCrawledItem raises (rejects) instead of
    returning the safe default not-relevant record, refuting the claim
    that every service-call failure returns the default. -/
theorem analyze_http_error_counterexample :
    analyzeCrawledItem (some "test-key") (ServiceOutcome.httpError 401 "Unauthorized" "")
        exampleItem =
      Except.error "MiniMax API request failed with 401 Unauthorized: " ∧
    analyzeCrawledItem (some "test-key") (ServiceOutcome.httpError 401 "Unauthorized" "")
        exampleItem ≠
      Except.ok (analyzePayloadDefaults exampleItem.title) := by
  constructor
  · with_unfolding_all decide
  · with_unfolding_all decide

/-- C4 (amended): with no credential (or an empty one) analyzeCrawledItem
    returns the safe default not-relevant record; with a credential, every
    service failure (fetch rejection, non-2xx, empty extracted text,
    unparseable JSON) makes it raise; the failure is absorbed one level
    up — the pipeline counts a rejected analysis as ignored and keeps
    going, and a pass whose crawl succeeded always returns a summary, so
    no single item's classification failure aborts the pass. -/
theorem analyze_failure_containment :
    (∀ (outcome : ServiceOutcome) (item : CrawledItem),
      analyzeCrawledItem none outcome item = Except.ok (analyzePayloadDefaults item.title)) ∧
    (∀ (key msg : String) (item : CrawledItem), key ≠ "" →
      analyzeCrawledItem (some key) (ServiceOutcome.fetchFailure msg) item = Except.error msg) ∧
    (∀ (key statusText body : String) (status : Nat) (item : CrawledItem), key ≠ "" →
      analyzeCrawledItem (some key) (ServiceOutcome.httpError status statusText body) item =
        Except.error ("MiniMax API request failed with " ++ toString status ++ " "
          ++ statusText ++ ": " ++ body.take 200)) ∧
    (∀ (key : String) (payload : Json) (item : CrawledItem), key ≠ "" →
      extractTextFromModelResponse payload = "" →
      analyzeCrawledItem (some key) (ServiceOutcome.success payload) item =
        Except.error "MiniMax API returned no analyzable text content") ∧
    (∀ (key : String) (payload : Json) (item : CrawledItem), key ≠ "" →
      extractTextFromModelResponse payload ≠ "" →
      parseResponseJson (extractTextFromModelResponse payload) = none →
      analyzeCrawledItem (some key) (ServiceOutcome.success payload) item =
        Except.error "MiniMax API response could not be parsed as JSON") ∧
    (∀ (env : PipelineEnv) (st : PassState) (item : CrawledItem) (msg : String),
      env.analyze item = Except.error msg →
      processItem env st item =
        { st with counters :=
            { st.counters with
              itemsDiscovered := st.counters.itemsDiscovered + 1
              eventsIgnored := st.counters.eventsIgnored + 1 } }) ∧
    (∀ (selected : List SourceRecord) (env : PipelineEnv) (db : Db) (cr : CrawlResult),
      env.crawl = Except.ok cr →
      ((runIngestionPipeline selected env db).1).isOk = true) := by
  refine ⟨?_, ?_, ?_, ?_, ?_, ?_, ?_⟩
  · intro outcome item
    rfl
  · intro key msg item hk
    simp [analyzeCrawledItem, hk]
  · intro key statusText body status item hk
    simp [analyzeCrawledItem, hk]
  · intro key payload item hk hempty
    simp [analyzeCrawledItem, hk, hempty]
  · intro key payload item hk hne hparse
    simp [analyzeCrawledItem, hk, hne, hparse]
  · intro env st item msg hmsg
    simp [processItem, hmsg]
  · intro selected env db cr hcr
    simp [runIngestionPipeline, hcr, Except.isOk, Except.toBool]

/-- C4 amended-theorem witness: the conjuncts applied at concrete inputs
    (missing credential returns the defaults; a fetch failure with a
    configured key raises; the pipeline with one failing item still
    returns a summary). -/
theorem analyze_failure_containment_witness :
    analyzeCrawledItem none (ServiceOutcome.fetchFailure "timeout") exampleItem =
      Except.ok (analyzePayloadDefaults exampleItem.title) ∧
    analyzeCrawledItem (some "test-key") (ServiceOutcome.fetchFailure "timeout") exampleItem =
      Except.error "timeout" ∧
    ((runIngestionPipeline [] exampleFailingAnalysisEnv emptyDb).1).isOk = true :=
  ⟨analyze_failure_containment.1 (ServiceOutcome.fetchFailure "timeout") exampleItem,
   analyze_failure_containment.2.1 "test-key" "timeout" exampleItem
     (by with_unfolding_all decide),
   analyze_failure_containment.2.2.2.2.2.2 [] exampleFailingAnalysisEnv emptyDb
     { items := [exampleItem], sourceResults := [] } rfl⟩

/-- C6: every score field of any AnalyzedItem returned by
    analyzeCrawledItem is an integer (the Int carrier of the normalized
    scores) in [1,5]; and normalizeScore maps every raw JSON value into
    [1,5], with values that do not coerce to a finite JS number defaulted
    to 1 and finite values rounded then clamped to the nearest bound. -/
theorem normalize_score_range_contract :
    (∀ (apiKey : Option String) (outcome : ServiceOutcome) (item : CrawledItem)
        (analysis : AnalyzedItem),
      analyzeCrawledItem apiKey outcome item = Except.ok analysis →
      (1 ≤ analysis.impactScore ∧ analysis.impactScore ≤ 5) ∧
      (1 ≤ analysis.likelihoodScore ∧ analysis.likelihoodScore ≤ 5) ∧
      (1 ≤ analysis.confidenceScore ∧ analysis.confidenceScore ≤ 5) ∧
      (1 ≤ analysis.chiliScore ∧ analysis.chiliScore ≤ 5)) ∧
    (∀ v : Option Json, 1 ≤ normalizeScore v ∧ normalizeScore v ≤ 5) ∧
    (∀ v : Option Json, jsToNumber v = JsNumber.notFinite → normalizeScore v = 1) ∧
    (∀ (v : Option Json) (q : Rat), jsToNumber v = JsNumber.finite q →
      jsRound q < 1 → normalizeScore v = 1) ∧
    (∀ (v : Option Json) (q : Rat), jsToNumber v = JsNumber.finite q →
      5 < jsRound q → normalizeScore v = 5) ∧
    (∀ (v : Option Json) (q : Rat), jsToNumber v = JsNumber.finite q →
      1 ≤ jsRound q → jsRound q ≤ 5 → normalizeScore v = jsRound q) := by
  have hrange : ∀ v : Option Json, 1 ≤ normalizeScore v ∧ normalizeScore v ≤ 5 := by
    intro v
    unfold normalizeScore
    cases hn : jsToNumber v with
    | notFinite => exact ⟨le_refl 1, by norm_num⟩
    | finite q =>
      by_cases h1 : jsRound q < 1
      · simp [h1]
      · by_cases h5 : jsRound q > 5
        · simp [h1, h5]
        · simp [h1, h5]
          omega
  refine ⟨?_, hrange, ?_, ?_, ?_, ?_⟩
  · intro apiKey outcome item analysis h
    have hdefaults : ∀ t : String,
        (1 ≤ (analyzePayloadDefaults t).impactScore ∧ (analyzePayloadDefaults t).impactScore ≤ 5) ∧
        (1 ≤ (analyzePayloadDefaults t).likelihoodScore ∧ (analyzePayloadDefaults t).likelihoodScore ≤ 5) ∧
        (1 ≤ (analyzePayloadDefaults t).confidenceScore ∧ (analyzePayloadDefaults t).confidenceScore ≤ 5) ∧
        (1 ≤ (analyzePayloadDefaults t).chiliScore ∧ (analyzePayloadDefaults t).chiliScore ≤ 5) := by
      intro t
      simp [analyzePayloadDefaults]
    rcases apiKey with _ | key
    · simp only [analyzeCrawledItem] at h
      have h2 := Except.ok.inj h
      rw [← h2]
      exact hdefaults item.title
    · by_cases hk : key = ""
      · subst hk
        simp only [analyzeCrawledItem] at h
        have h2 := Except.ok.inj h
        rw [← h2]
        exact hdefaults item.title
      · have hkd : ¬ (decide (key = "") = true) := by simp [hk]
        cases outcome with
        | fetchFailure msg =>
          simp only [analyzeCrawledItem] at h
          rw [if_neg hkd] at h
          simp at h
        | httpError status statusText body =>
          simp only [analyzeCrawledItem] at h
          rw [if_neg hkd] at h
          simp at h
        | success payload =>
          simp only [analyzeCrawledItem] at h
          rw [if_neg hkd] at h
          by_cases hraw : extractTextFromModelResponse payload = ""
          · rw [if_pos hraw] at h
            simp at h
          · rw [if_neg hraw] at h
            rcases hp : parseResponseJson (extractTextFromModelResponse payload) with _ | parsed
            · simp only [hp] at h
              simp at h
            · simp only [hp] at h
              have h2 := Except.ok.inj h
              rw [← h2]
              exact ⟨hrange _, hrange _, hrange _, hrange _⟩
  · intro v hv
    unfold normalizeScore
    rw [hv]
  · intro v q hv h1
    unfold normalizeScore
    rw [hv]
    simp [h1]
  · intro v q hv h5
    unfold normalizeScore
    rw [hv]
    have h1 : ¬ jsRound q < 1 := by omega
    simp [h1, h5]
  · intro v q hv h1 h5
    unfold normalizeScore
    rw [hv]
    have h1n : ¬ jsRound q < 1 := by omega
    have h5n : ¬ jsRound q > 5 := by omega
    simp [h1n, h5n]

/-- C6 witness: the contract applied at concrete raw values — a default
    (not-relevant) analysis carries in-range scores, a non-numeric string
    defaults to 1, 7 clamps to 5 and -2 clamps to 1. -/
theorem normalize_score_range_contract_witness :
    ((1 ≤ (analyzePayloadDefaults exampleItem.title).impactScore ∧
        (analyzePayloadDefaults exampleItem.title).impactScore ≤ 5) ∧
      (1 ≤ (analyzePayloadDefaults exampleItem.title).likelihoodScore ∧
        (analyzePayloadDefaults exampleItem.title).likelihoodScore ≤ 5) ∧
      (1 ≤ (analyzePayloadDefaults exampleItem.title).confidenceScore ∧
        (analyzePayloadDefaults exampleItem.title).confidenceScore ≤ 5) ∧
      (1 ≤ (analyzePayloadDefaults exampleItem.title).chiliScore ∧
        (analyzePayloadDefaults exampleItem.title).chiliScore ≤ 5)) ∧
    normalizeScore (some (Json.str "not-a-number")) = 1 ∧
    normalizeScore (some (Json.num 7)) = 5 ∧
    normalizeScore (some (Json.num (-2))) = 1 :=
  ⟨normalize_score_range_contract.1 none (ServiceOutcome.fetchFailure "x") exampleItem
      (analyzePayloadDefaults exampleItem.title) rfl,
   normalize_score_range_contract.2.2.1 (some (Json.str "not-a-number"))
      (by with_unfolding_all decide),
   normalize_score_range_contract.2.2.2.2.1 (some (Json.num 7)) 7 rfl
      (by with_unfolding_all decide),
   normalize_score_range_contract.2.2.2.1 (some (Json.num (-2))) (-2) rfl
      (by with_unfolding_all decide)⟩

/-- C8: whenever the classifier summary (after sanitization) is empty or
    shorter than the 60-character minimum, or matches the no-details
    boilerplate, or the combined title+summary+raw text has no
    regulatory-process keyword, upsertAnalysedItem reports `ignored` and
    leaves the store untouched — independently of the classifier's own
    relevance verdict. -/
theorem quality_gate_rejects_thin_items
    (db : Db) (item : CrawledItem) (analysis : AnalyzedItem) (now : String)
    (hlowq : sanitizeText analysis.summary = "" ∨
      (sanitizeText analysis.summary).length < 60 ∨
      boilerplatePhrases.any (fun p => strContainsCI (sanitizeText analysis.summary) p) = true ∨
      ¬ (regulatoryKeywords.any (fun k => strContainsCI
          (sanitizeText item.title ++ " " ++ sanitizeText analysis.summary ++ " "
            ++ (sanitizeText item.rawText).toLower) k) = true)) :
    upsertAnalysedItem db item analysis now = Except.ok (UpsertOutcome.ignored, db) := by
  have hlow : isLowQualityAnalysis item analysis = true := by
    unfold isLowQualityAnalysis
    by_cases hA : sanitizeText analysis.summary = "" ∨ (sanitizeText analysis.summary).length < 60
    · rw [if_pos hA]
    · rw [if_neg hA]
      by_cases hB : boilerplatePhrases.any
          (fun p => strContainsCI (sanitizeText analysis.summary) p) = true
      · rw [if_pos hB]
      · rw [if_neg hB]
        rcases hlowq with h | h | h | h
        · exact absurd (Or.inl h) hA
        · exact absurd (Or.inr h) hA
        · exact absurd h hB
        · rw [if_pos h]
  unfold upsertAnalysedItem
  cases hrel : analysis.isRelevant with
  | false => simp [hrel]
  | true => simp [hrel, hlow]

/-- C8 witness: a relevant verdict with a 10-character summary against
    the example store is ignored and writes nothing. -/
theorem quality_gate_rejects_thin_items_witness :
    upsertAnalysedItem exampleDb exampleItem exampleThinAnalysis "2026-03-01T00:00:00.000Z" =
      Except.ok (UpsertOutcome.ignored, exampleDb) :=
  quality_gate_rejects_thin_items exampleDb exampleItem exampleThinAnalysis
    "2026-03-01T00:00:00.000Z" (Or.inr (Or.inl (by with_unfolding_all decide)))

set_option maxRecDepth 100000 in
/-- C9 counterexample: a feed entry with no title does not disappear —
    it is parsed into one CrawlInput titled with the fallback
    "Untitled feed item", refuting the claim that entries with an empty
    title yield no CrawlInput. -/
theorem feed_untitled_entry_counterexample :
    parseFeedText feedScenarioUntitled "https://ex.gov/feed" =
      [{ title := "Untitled feed item"
         publishedAt := none
         url := "https://ex.gov/b"
         summary := "Only description here"
         rawText := "Untitled feed item. Only description here" }] := by
  with_unfolding_all decide

/-- The inductive invariant of the parseFeedText entry loop: keys of
    accumulated items live in the seen set, output keys are pairwise
    distinct, fields stay non-empty, and the accumulator never exceeds
    five items. -/
theorem parseFeedGo_invariant (sourceUrl : String) (entries : List String) :
    ∀ (seen : List String) (acc : List CrawlInput),
      (∀ it ∈ acc, feedDedupeKey it ∈ seen) →
      acc.Pairwise (fun a b => feedDedupeKey a ≠ feedDedupeKey b) →
      (∀ it ∈ acc, it.url ≠ "" ∧ it.title ≠ "") →
      acc.length ≤ 5 →
      ((parseFeedGo sourceUrl entries seen acc).Pairwise
          (fun a b => feedDedupeKey a ≠ feedDedupeKey b) ∧
        (∀ it ∈ parseFeedGo sourceUrl entries seen acc, it.url ≠ "" ∧ it.title ≠ "") ∧
        (parseFeedGo sourceUrl entries seen acc).length ≤ 5) := by
  induction entries with
  | nil =>
    intro seen acc _ h2 h3 h4
    simpa [parseFeedGo] using ⟨h2, h3, h4⟩
  | cons entry rest ih =>
    intro seen acc h1 h2 h3 h4
    simp only [parseFeedGo]
    by_cases hfull : acc.length ≥ 5
    · rw [if_pos hfull]
      exact ⟨h2, h3, h4⟩
    · rw [if_neg hfull]
      by_cases hskip : (feedEntryItem sourceUrl entry).title = "" ∨
          (feedEntryItem sourceUrl entry).url = "" ∨
          seen.contains (feedDedupeKey (feedEntryItem sourceUrl entry)) = true
      · rw [if_pos hskip]
        exact ih seen acc h1 h2 h3 h4
      · rw [if_neg hskip]
        push_neg at hskip
        obtain ⟨hT, hU, hS⟩ := hskip
        have hdkmem : feedDedupeKey (feedEntryItem sourceUrl entry) ∉ seen := by
          intro hmem
          exact hS (by simpa using hmem)
        apply ih
        · intro it hit
          rcases List.mem_append.mp hit with hin | hin
          · exact List.mem_cons_of_mem _ (h1 it hin)
          · rw [List.mem_singleton] at hin
            subst hin
            exact List.mem_cons_self _ _
        · rw [List.pairwise_append]
          refine ⟨h2, List.pairwise_singleton _ _, ?_⟩
          intro a ha b hb
          rw [List.mem_singleton] at hb
          subst hb
          intro heq
          exact hdkmem (heq ▸ h1 a ha)
        · intro it hit
          rcases List.mem_append.mp hit with hin | hin
          · exact h3 it hin
          · rw [List.mem_singleton] at hin
            subst hin
            exact ⟨hU, hT⟩
        · have : acc.length < 5 := lt_of_not_ge hfull
          simp [List.length_append]
          omega

set_option maxRecDepth 100000 in
/-- C9 (amended): within one feed, entries sharing the same (url, title)
    pair — compared through the lower-cased url::title dedupe key — are
    parsed into exactly one CrawlInput, the first occurrence with its own
    description; entries with an empty url yield no CrawlInput; entries
    with an empty or missing title are kept under the fallback title
    "Untitled feed item" rather than dropped; and at most five items are
    taken from a single feed.  The spec scenario (two item blocks with
    the same link and title but different descriptions) yields exactly
    the first occurrence. -/
theorem parse_feed_dedupe_contract :
    (∀ feedText sourceUrl : String,
      ((parseFeedText feedText sourceUrl).Pairwise
          (fun a b => feedDedupeKey a ≠ feedDedupeKey b) ∧
        (∀ it ∈ parseFeedText feedText sourceUrl, it.url ≠ "" ∧ it.title ≠ "") ∧
        (parseFeedText feedText sourceUrl).length ≤ 5)) ∧
    parseFeedText feedScenarioDuplicates "https://ex.gov/feed" =
      [{ title := "Teen Act"
         publishedAt := none
         url := "https://ex.gov/a"
         summary := "First text"
         rawText := "Teen Act. First text" }] := by
  constructor
  · intro feedText sourceUrl
    unfold parseFeedText
    exact parseFeedGo_invariant sourceUrl _ [] [] (by simp) (by simp) (by simp) (by simp)
  · with_unfolding_all decide

/-- A successful upsert never touches the crawl-run ledger. -/
theorem upsertRegulationEvent_crawlRuns (db : Db) (e : RegulationEventInput) (now : String)
    (res : UpsertEventResult) (db' : Db)
    (h : upsertRegulationEvent db e now = Except.ok (res, db')) :
    db'.crawlRuns = db.crawlRuns := by
  simp only [upsertRegulationEvent] at h
  split at h
  · split at h
    · simp at h
    · split at h
      · simp at h
      · have h2 := Except.ok.inj h
        have hdb : _ = db' := congrArg Prod.snd h2
        rw [← hdb]
        simp [upsertSource_crawlRuns]
  · split at h <;> (try split at h) <;>
      (have h2 := Except.ok.inj h
       have hdb : _ = db' := congrArg Prod.snd h2
       rw [← hdb]
       simp [upsertSource_crawlRuns])

/-- upsertAnalysedItem never touches the crawl-run ledger. -/
theorem upsertAnalysedItem_crawlRuns (db : Db) (item : CrawledItem)
    (analysis : AnalyzedItem) (now : String) (o : UpsertOutcome) (db' : Db)
    (h : upsertAnalysedItem db item analysis now = Except.ok (o, db')) :
    db'.crawlRuns = db.crawlRuns := by
  simp only [upsertAnalysedItem] at h
  split at h
  · have h2 := Except.ok.inj h
    have hdb : _ = db' := congrArg Prod.snd h2
    rw [← hdb]
  · split at h
    · have h2 := Except.ok.inj h
      have hdb : _ = db' := congrArg Prod.snd h2
      rw [← hdb]
    · split at h
      · simp at h
      · rename_i result hup
        have h2 := Except.ok.inj h
        have hdb : _ = db' := congrArg Prod.snd h2
        rw [← hdb]
        exact upsertRegulationEvent_crawlRuns _ _ _ _ _ hup

/-- One write-loop iteration never touches the crawl-run ledger. -/
theorem processItem_crawlRuns (env : PipelineEnv) (st : PassState) (item : CrawledItem) :
    (processItem env st item).db.crawlRuns = st.db.crawlRuns := by
  unfold processItem
  cases ha : env.analyze item with
  | error msg => simp [ha]
  | ok analysis =>
    simp only [ha]
    by_cases hmem : buildDeduplicationKey item analysis ∈ st.seen
    · simp [hmem]
    · cases hup : upsertAnalysedItem st.db item analysis env.now with
      | error m => simp [hmem, hup]
      | ok pair =>
        obtain ⟨outcome, db2⟩ := pair
        have hcr := upsertAnalysedItem_crawlRuns _ _ _ _ _ _ hup
        simp [hmem, hup, hcr]

/-- The write phase never touches the crawl-run ledger. -/
theorem processItems_crawlRuns (env : PipelineEnv) (items : List CrawledItem) :
    ∀ st : PassState, (processItems env st items).db.crawlRuns = st.db.crawlRuns := by
  induction items with
  | nil => intro st; rfl
  | cons item rest ih =>
    intro st
    rw [processItems, ih (processItem env st item), processItem_crawlRuns]

/-- A finalize-style map leaves rows with other ids untouched. -/
theorem map_finalize_untouched (l : List CrawlRunRow) (runId : Nat)
    (g : CrawlRunRow → CrawlRunRow) (h : ∀ r ∈ l, r.id ≠ runId) :
    l.map (fun r => if r.id == runId then g r else r) = l := by
  induction l with
  | nil => rfl
  | cons a t ih =>
    simp only [List.map_cons]
    rw [if_neg (by simp [h a (List.mem_cons_self a t)]), ih (fun r hr => h r (List.mem_cons_of_mem a hr))]

/-- C5: every pipeline invocation creates its crawl-run row in `running`
    state with null finished_at, and finalizes it exactly once: the final
    store holds the prior rows untouched plus exactly one new run row
    whose finished_at is set, whose status is `failed` when the crawl
    threw, `partial` when at least one selected source failed and
    `completed` otherwise, and is never `running` again; on the failed
    path the crawl error is re-raised to the caller after finalization. -/
theorem crawl_run_lifecycle :
    (∀ (db : Db) (now : String),
      (createCrawlRun db now).1 = db.crawlRuns.length + 1 ∧
      ((createCrawlRun db now).2).crawlRuns =
        db.crawlRuns ++
          [{ id := db.crawlRuns.length + 1
             started_at := now
             finished_at := none
             status := CrawlRunStatus.running
             sources_attempted := 0
             sources_success := 0
             sources_failed := 0
             items_discovered := 0
             events_created := 0
             events_updated := 0
             events_status_changed := 0
             events_ignored := 0 }]) ∧
    (∀ (selected : List SourceRecord) (env : PipelineEnv) (db : Db),
      (∀ r ∈ db.crawlRuns, r.id ≠ db.crawlRuns.length + 1) →
      ∃ run : CrawlRunRow,
        ((runIngestionPipeline selected env db).2).crawlRuns = db.crawlRuns ++ [run] ∧
        run.id = db.crawlRuns.length + 1 ∧
        run.started_at = env.now ∧
        run.finished_at = some env.now ∧
        run.status = (match env.crawl with
          | Except.error _ => CrawlRunStatus.failed
          | Except.ok cr =>
              if (tallySourceResults selected cr.sourceResults).failed > 0 then
                CrawlRunStatus.partialRun
              else CrawlRunStatus.completed) ∧
        run.status ≠ CrawlRunStatus.running) ∧
    (∀ (selected : List SourceRecord) (env : PipelineEnv) (db : Db) (msg : String),
      env.crawl = Except.error msg →
      (runIngestionPipeline selected env db).1 = Except.error msg) := by
  refine ⟨?_, ?_, ?_⟩
  · intro db now
    exact ⟨rfl, rfl⟩
  · intro selected env db hfresh
    have hfin : ∀ (dbMid : Db) (vals : FinalizeValues),
        dbMid.crawlRuns = db.crawlRuns ++
          [{ id := db.crawlRuns.length + 1
             started_at := env.now
             finished_at := none
             status := CrawlRunStatus.running
             sources_attempted := 0
             sources_success := 0
             sources_failed := 0
             items_discovered := 0
             events_created := 0
             events_updated := 0
             events_status_changed := 0
             events_ignored := 0 }] →
        (finalizeCrawlRun dbMid (db.crawlRuns.length + 1) vals env.now).crawlRuns =
          db.crawlRuns ++
            [{ id := db.crawlRuns.length + 1
               started_at := env.now
               finished_at := some env.now
               status := vals.status
               sources_attempted := vals.sourcesAttempted
               sources_success := vals.sourcesSuccess
               sources_failed := vals.sourcesFailed
               items_discovered := vals.itemsDiscovered
               events_created := vals.eventsCreated
               events_updated := vals.eventsUpdated
               events_status_changed := vals.eventsStatusChanged
               events_ignored := vals.eventsIgnored }] := by
      intro dbMid vals hmid
      simp only [finalizeCrawlRun, hmid]
      rw [List.map_append, map_finalize_untouched _ _ _ hfresh]
      simp
    cases hcr : env.crawl with
    | error msg =>
      have h1 : ((runIngestionPipeline selected env db).2).crawlRuns =
          db.crawlRuns ++
            [{ id := db.crawlRuns.length + 1
               started_at := env.now
               finished_at := some env.now
               status := CrawlRunStatus.failed
               sources_attempted := 0
               sources_success := 0
               sources_failed := 0
               items_discovered := 0
               events_created := 0
               events_updated := 0
               events_status_changed := 0
               events_ignored := 0 }] := by
        simp only [runIngestionPipeline, hcr, createCrawlRun]
        exact hfin _ _ (by simp [createCrawlRun])
      exact ⟨_, h1, rfl, rfl, rfl, by simp [hcr], by simp⟩
    | ok cr =>
      have h1 : ((runIngestionPipeline selected env db).2).crawlRuns =
          db.crawlRuns ++
            [{ id := db.crawlRuns.length + 1
               started_at := env.now
               finished_at := some env.now
               status :=
                 if (tallySourceResults selected cr.sourceResults).failed > 0 then
                   CrawlRunStatus.partialRun
                 else CrawlRunStatus.completed
               sources_attempted := cr.sourceResults.length
               sources_success := (tallySourceResults selected cr.sourceResults).success
               sources_failed := (tallySourceResults selected cr.sourceResults).failed
               items_discovered :=
                 (processItems env
                   { db := (createCrawlRun db env.now).2, seen := [], counters := zeroCounters }
                   cr.items).counters.itemsDiscovered
               events_created :=
                 (processItems env
                   { db := (createCrawlRun db env.now).2, seen := [], counters := zeroCounters }
                   cr.items).counters.eventsCreated
               events_updated :=
                 (processItems env
                   { db := (createCrawlRun db env.now).2, seen := [], counters := zeroCounters }
                   cr.items).counters.eventsUpdated
               events_status_changed :=
                 (processItems env
                   { db := (createCrawlRun db env.now).2, seen := [], counters := zeroCounters }
                   cr.items).counters.eventsStatusChanged
               events_ignored :=
                 (processItems env
                   { db := (createCrawlRun db env.now).2, seen := [], counters := zeroCounters }
                   cr.items).counters.eventsIgnored }] := by
        simp only [runIngestionPipeline, hcr, createCrawlRun]
        apply hfin
        rw [processItems_crawlRuns]
      exact ⟨_, h1, rfl, rfl, rfl, by simp [hcr], by split <;> simp⟩
  · intro selected env db msg hcr
    simp [runIngestionPipeline, hcr]

/-- C5 witness: the lifecycle applied to an empty store for a pass whose
    crawl succeeds (finalized `completed`) and to one whose crawl throws
    (finalized `failed`, error re-raised). -/
theorem crawl_run_lifecycle_witness :
    (∃ run : CrawlRunRow,
      ((runIngestionPipeline [] exampleFailingAnalysisEnv emptyDb).2).crawlRuns =
        emptyDb.crawlRuns ++ [run] ∧
      run.id = emptyDb.crawlRuns.length + 1 ∧
      run.started_at = exampleFailingAnalysisEnv.now ∧
      run.finished_at = some exampleFailingAnalysisEnv.now ∧
      run.status = (match exampleFailingAnalysisEnv.crawl with
        | Except.error _ => CrawlRunStatus.failed
        | Except.ok cr =>
            if (tallySourceResults [] cr.sourceResults).failed > 0 then
              CrawlRunStatus.partialRun
            else CrawlRunStatus.completed) ∧
      run.status ≠ CrawlRunStatus.running) ∧
    (runIngestionPipeline [] exampleCrashingEnv emptyDb).1 = Except.error "network down" :=
  ⟨crawl_run_lifecycle.2.1 [] exampleFailingAnalysisEnv emptyDb (by simp [emptyDb]),
   crawl_run_lifecycle.2.2 [] exampleCrashingEnv emptyDb "network down" rfl⟩

/-- C10: each item reaching the write loop bumps itemsDiscovered by one
    and exactly one of created/updated/status_changed/ignored unless the
    upsert reported `unchanged`, which bumps none of the four; so over a
    whole pass created + updated + status_changed + ignored never exceeds
    itemsDiscovered, and itemsDiscovered splits exactly into the four
    counters plus the number of `unchanged` outcomes, which appear in no
    counter of the CrawlSummary. -/
theorem counter_partition :
    (∀ (env : PipelineEnv) (st : PassState) (item : CrawledItem),
      (processItem env st item).counters.itemsDiscovered =
        st.counters.itemsDiscovered + 1 ∧
      counterSum (processItem env st item).counters =
        counterSum st.counters + (if itemIsUnchanged env st item then 0 else 1)) ∧
    (∀ (env : PipelineEnv) (items : List CrawledItem) (st : PassState),
      (processItems env st items).counters.itemsDiscovered =
        st.counters.itemsDiscovered + items.length ∧
      counterSum (processItems env st items).counters + countUnchanged env st items =
        counterSum st.counters + items.length) ∧
    (∀ (selected : List SourceRecord) (env : PipelineEnv) (db : Db)
        (cr : CrawlResult) (s : CrawlSummary) (db2 : Db),
      env.crawl = Except.ok cr →
      runIngestionPipeline selected env db = (Except.ok s, db2) →
      s.eventsCreated + s.eventsUpdated + s.eventsStatusChanged + s.eventsIgnored ≤
        s.itemsDiscovered ∧
      s.itemsDiscovered =
        (s.eventsCreated + s.eventsUpdated + s.eventsStatusChanged + s.eventsIgnored) +
          countUnchanged env
            { db := (createCrawlRun db env.now).2, seen := [], counters := zeroCounters }
            cr.items) := by
  have hstep : ∀ (env : PipelineEnv) (st : PassState) (item : CrawledItem),
      (processItem env st item).counters.itemsDiscovered =
        st.counters.itemsDiscovered + 1 ∧
      counterSum (processItem env st item).counters =
        counterSum st.counters + (if itemIsUnchanged env st item then 0 else 1) := by
    intro env st item
    unfold processItem itemIsUnchanged
    cases ha : env.analyze item with
    | error msg =>
      simp only [ha]
      exact ⟨by trivial, by simp [counterSum] <;> omega⟩
    | ok analysis =>
      simp only [ha]
      by_cases hmem : st.seen.contains (buildDeduplicationKey item analysis)
      · simp only [hmem, if_true]
        exact ⟨by trivial, by simp [counterSum] <;> omega⟩
      · simp only [hmem, if_false, Bool.false_eq_true]
        cases hup : upsertAnalysedItem st.db item analysis env.now with
        | error e =>
          simp only [hup]
          exact ⟨by trivial, by simp [counterSum] <;> omega⟩
        | ok p =>
          obtain ⟨outcome, db2⟩ := p
          simp only [hup]
          cases outcome <;>
            exact ⟨by trivial, by simp [counterSum, bumpOutcome] <;> omega⟩
  have hfold : ∀ (env : PipelineEnv) (items : List CrawledItem) (st : PassState),
      (processItems env st items).counters.itemsDiscovered =
        st.counters.itemsDiscovered + items.length ∧
      counterSum (processItems env st items).counters + countUnchanged env st items =
        counterSum st.counters + items.length := by
    intro env items
    induction items with
    | nil => intro st; simp [processItems, countUnchanged]
    | cons item rest ih =>
      intro st
      have h1 := hstep env st item
      have h2 := ih (processItem env st item)
      constructor
      · simp only [processItems, List.length_cons]
        rw [h2.1, h1.1]
        omega
      · simp only [processItems, countUnchanged, List.length_cons]
        have h2s := h2.2
        have h1s := h1.2
        by_cases hu : itemIsUnchanged env st item = true
        · simp only [hu, if_true] at h1s ⊢
          omega
        · simp only [hu, if_false, Bool.false_eq_true] at h1s ⊢
          omega
  refine ⟨hstep, hfold, ?_⟩
  intro selected env db cr s db2 hcr hrun
  have hf := hfold env cr.items
    { db := (createCrawlRun db env.now).2, seen := [], counters := zeroCounters }
  simp only [runIngestionPipeline, hcr] at hrun
  have hs := Except.ok.inj (congrArg Prod.fst hrun)
  have hD := hf.1
  have hS := hf.2
  unfold counterSum at hS
  rw [← hs]
  simp only [zeroCounters] at hD hS ⊢
  try dsimp only at hD hS ⊢
  constructor <;> omega

/-- C10 witness: the partition applied to the concrete one-item pass whose
    single item is counted ignored, so the four counters sum to the single
    discovered item and no `unchanged` outcome occurs. -/
theorem counter_partition_witness :
    exampleFailingAnalysisEnv.crawl =
      Except.ok { items := [exampleItem], sourceResults := [] } ∧
    runIngestionPipeline [] exampleFailingAnalysisEnv emptyDb =
      (Except.ok examplePipelineSummary, examplePipelineDb) ∧
    (examplePipelineSummary.eventsCreated + examplePipelineSummary.eventsUpdated +
        examplePipelineSummary.eventsStatusChanged + examplePipelineSummary.eventsIgnored ≤
      examplePipelineSummary.itemsDiscovered ∧
     examplePipelineSummary.itemsDiscovered =
       (examplePipelineSummary.eventsCreated + examplePipelineSummary.eventsUpdated +
         examplePipelineSummary.eventsStatusChanged + examplePipelineSummary.eventsIgnored) +
         countUnchanged exampleFailingAnalysisEnv
           { db := (createCrawlRun emptyDb exampleFailingAnalysisEnv.now).2
             seen := []
             counters := zeroCounters }
           [exampleItem]) :=
  ⟨rfl,
   by with_unfolding_all decide,
   counter_partition.2.2 [] exampleFailingAnalysisEnv emptyDb
     { items := [exampleItem], sourceResults := [] }
     examplePipelineSummary examplePipelineDb rfl
     (by with_unfolding_all decide)⟩

end RegDashboard
